import Mathlib

/-! Verification of the deconz-rs frame codec and scheduler.

The definitions below are a shallow embedding of the Rust sources:
bytes are `Nat` values (< 256 on the wire), `bytes::Bytes` buffers are
`List Nat`, fallible parsing is `Except`/`Option` (where `none` models a
panic of the parsing task), and machine arithmetic is `Nat` arithmetic
with explicit `% 2^w` at the points where the source wraps or casts. -/

namespace Deconz

/-! ## Command ids, status codes, protocol errors
From `src/src/deconz/protocol/mod.rs`. -/

inductive CommandId where
  | DeviceState
  | ChangeNetworkState
  | ReadParameter
  | WriteParameter
  | DeviceStateChanged
  | Version
  | ApsDataRequest
  | ApsDataConfirm
  | ApsDataIndication
  | MacPollIndication
  | MacBeaconIndication
  | UpdateBootloader
deriving DecidableEq, Repr

/-- The discriminant byte of each command id (`#[repr(u8)]` values). -/
def CommandId.toByte : CommandId → Nat
  | .DeviceState => 0x07
  | .ChangeNetworkState => 0x08
  | .ReadParameter => 0x0A
  | .WriteParameter => 0x0B
  | .DeviceStateChanged => 0x0E
  | .Version => 0x0D
  | .ApsDataRequest => 0x12
  | .ApsDataConfirm => 0x04
  | .ApsDataIndication => 0x17
  | .MacPollIndication => 0x1C
  | .MacBeaconIndication => 0x1F
  | .UpdateBootloader => 0x21

inductive StatusCode where
  | Success
  | Failure
  | Busy
  | Timeout
  | Unsupported
  | Error
  | NoNetwork
  | InvalidValue
deriving DecidableEq, Repr

def StatusCode.toByte : StatusCode → Nat
  | .Success => 0x00
  | .Failure => 0x01
  | .Busy => 0x02
  | .Timeout => 0x03
  | .Unsupported => 0x04
  | .Error => 0x05
  | .NoNetwork => 0x06
  | .InvalidValue => 0x07

/-- `ProtocolError` from `src/src/deconz/frame.rs` (the `CrcError::WrongSize`
variant is embedded as `CrcWrongSize`). -/
inductive ProtocolError where
  | UnknownCommandId (id : Nat)
  | UnknownNetworkState (id : Nat)
  | UnknownStatusCode (id : Nat)
  | SmallFrame (len : Nat)
  | LargeFrame (len : Nat)
  | CrcWrongSize (len : Nat)
deriving DecidableEq, Repr

/-- `impl TryFrom of u8 for CommandId`: chain of guard comparisons, falling
through to `UnknownCommandId`. -/
def CommandId.fromByte (value : Nat) : Except ProtocolError CommandId :=
  if value = CommandId.DeviceState.toByte then .ok .DeviceState
  else if value = CommandId.ChangeNetworkState.toByte then .ok .ChangeNetworkState
  else if value = CommandId.ReadParameter.toByte then .ok .ReadParameter
  else if value = CommandId.WriteParameter.toByte then .ok .WriteParameter
  else if value = CommandId.DeviceStateChanged.toByte then .ok .DeviceStateChanged
  else if value = CommandId.Version.toByte then .ok .Version
  else if value = CommandId.ApsDataRequest.toByte then .ok .ApsDataRequest
  else if value = CommandId.ApsDataConfirm.toByte then .ok .ApsDataConfirm
  else if value = CommandId.ApsDataIndication.toByte then .ok .ApsDataIndication
  else if value = CommandId.MacPollIndication.toByte then .ok .MacPollIndication
  else if value = CommandId.MacBeaconIndication.toByte then .ok .MacBeaconIndication
  else if value = CommandId.UpdateBootloader.toByte then .ok .UpdateBootloader
  else .error (.UnknownCommandId value)

/-- `impl TryFrom of u8 for StatusCode`: note that the fall-through arm of the
source returns `ProtocolError::UnknownCommandId(x)`, not `UnknownStatusCode`. -/
def StatusCode.fromByte (value : Nat) : Except ProtocolError StatusCode :=
  if value = StatusCode.Success.toByte then .ok .Success
  else if value = StatusCode.Failure.toByte then .ok .Failure
  else if value = StatusCode.Busy.toByte then .ok .Busy
  else if value = StatusCode.Timeout.toByte then .ok .Timeout
  else if value = StatusCode.Unsupported.toByte then .ok .Unsupported
  else if value = StatusCode.Error.toByte then .ok .Error
  else if value = StatusCode.NoNetwork.toByte then .ok .NoNetwork
  else if value = StatusCode.InvalidValue.toByte then .ok .InvalidValue
  else .error (.UnknownCommandId value)

/-! ## Incoming frame parsing
`DeconzFrame::parse_incoming` in `src/src/deconz/frame.rs`. -/

/-- A parsed incoming frame: the five header bytes are consumed, the
remaining payload bytes are kept (`inner: Bytes`). The reported total
length is checked and then discarded by the source, so it is not a field. -/
structure IncomingFrame where
  commandId : CommandId
  sequenceId : Nat
  status : StatusCode
  payload : List Nat
deriving DecidableEq, Repr

/-- `DeconzFrame::parse_incoming`: reject fewer than 5 bytes as `SmallFrame`;
read command id, sequence, status, and the 16-bit little-endian total length;
reject a remainder longer than the reported length as `LargeFrame`. -/
def parseIncoming (frame : List Nat) : Except ProtocolError IncomingFrame :=
  match frame with
  | commandByte :: seqByte :: statusByte :: len0 :: len1 :: rest =>
    match CommandId.fromByte commandByte with
    | .error e => .error e
    | .ok commandId =>
      match StatusCode.fromByte statusByte with
      | .error e => .error e
      | .ok status =>
        if len0 + 256 * len1 < rest.length then .error (.LargeFrame rest.length)
        else .ok ⟨commandId, seqByte, status, rest⟩
  | _ => .error (.SmallFrame frame.length)

/-! ## CRC
`DeconzCrc` in `src/src/deconz/frame.rs`. -/

/-- The `fold(0u16, wrapping_add)` byte sum. -/
def wrappingByteSum (input : List Nat) : Nat :=
  input.foldl (fun acc el => (acc + el) % 65536) 0

/-- The 16-bit value `!sum + 1` (two's-complement negation, wrapping). -/
def crcValue (input : List Nat) : Nat :=
  (65536 - wrappingByteSum input) % 65536

/-- `DeconzCrc::generate`: the two CRC bytes, low byte first. -/
def DeconzCrc.generate (input : List Nat) : List Nat :=
  [crcValue input % 256, crcValue input / 256 % 256]

/-- `DeconzCrc::verify_frame`: the source contains only a
`todo: validate incoming CRC` comment and parses the payload without ever
comparing it against the CRC value, so the embedding ignores its first
argument exactly as the source ignores `self`. -/
def DeconzCrc.verifyFrame (_crc : List Nat) (payload : List Nat) :
    Except ProtocolError IncomingFrame :=
  parseIncoming payload

/-! ## Stream-level frame read
`read_frame` in `src/deconz/src/stream.rs`. -/

inductive DeconzStreamError where
  | Read (payload : List Nat)
  | SlipCodec
  | Protocol (e : ProtocolError)
deriving DecidableEq, Repr

/-- `read_frame`: reject fewer than 2 bytes, split off the trailing 2 CRC
bytes (`DeconzCrc::from_values` succeeds since exactly 2 bytes remain), and
hand the prefix to `verify_frame`. -/
def readFrame (bytes : List Nat) : Except DeconzStreamError IncomingFrame :=
  if bytes.length < 2 then .error (.Read bytes)
  else
    let crcBytes := bytes.drop (bytes.length - 2)
    let rest := bytes.take (bytes.length - 2)
    if crcBytes.length = 2 then
      match DeconzCrc.verifyFrame crcBytes rest with
      | .ok frame => .ok frame
      | .error e => .error (.Protocol e)
    else .error (.Protocol (.CrcWrongSize crcBytes.length))

/-! ## Outgoing frame encoding
`DeconzFrame of OutgoingPacket` in `src/src/deconz/frame.rs`. -/

structure OutgoingFrame where
  commandId : CommandId
  sequenceId : Nat
  payload : Option (List Nat)
deriving Repr

/-- `header_bytes`: command id, sequence, status 0, and the
little-endian 16-bit total length `5 + (payload present ? 2 + len : 0)`
(the `as u16` cast wraps modulo 2^16). -/
def headerBytes (f : OutgoingFrame) : List Nat :=
  let frameLen := 5 + (match f.payload with | some b => 2 + b.length | none => 0)
  let frameLen16 := frameLen % 65536
  [f.commandId.toByte, f.sequenceId % 256, 0, frameLen16 % 256, frameLen16 / 256]

/-- `packet_bytes`: header, then, when a payload is present, the
little-endian payload length and the payload itself. The source aborts
when the payload length does not fit in a u16 (`none` here). -/
def packetBytes (f : OutgoingFrame) : Option (List Nat) :=
  match f.payload with
  | none => some (headerBytes f)
  | some b =>
    if 65535 < b.length then none
    else some (headerBytes f ++ [b.length % 256, b.length / 256] ++ b)

/-- `encode`: the packet bytes followed by the 2-byte CRC generated over them. -/
def encode (f : OutgoingFrame) : Option (List Nat) :=
  (packetBytes f).map (fun p => p ++ DeconzCrc.generate p)

/-! ## The Version request
`ReadFirmwareVersionRequest` in `src/deconz/src/protocol/device.rs`: the
payload is `put_u16_le(0)`, i.e. the two reserved bytes `00 00`. `as_frame`
builds the outgoing frame from `command_id()` and `payload_data()`. -/

def ReadFirmwareVersionRequest.payloadData : Option (List Nat) := some [0, 0]

def ReadFirmwareVersionRequest.asFrame (sequenceId : Nat) : OutgoingFrame :=
  ⟨.Version, sequenceId, ReadFirmwareVersionRequest.payloadData⟩

/-! ## Device state
`NetworkState` from `src/src/deconz/protocol/mod.rs`, `DeviceState` from
`src/deconz/src/protocol/device.rs`. -/

inductive NetworkState where
  | NetOffline
  | NetJoining
  | NetConnected
  | NetLeaving
deriving DecidableEq, Repr

/-- The network state decoded from the low two bits of a device-state flag
byte: `(flags & 0x03).try_into().unwrap()`, which never fails because the
masked value is 0..3. -/
def NetworkState.fromMaskedByte (b : Nat) : NetworkState :=
  match b % 4 with
  | 0 => .NetOffline
  | 1 => .NetJoining
  | 2 => .NetConnected
  | _ => .NetLeaving

/-- Modelled from the spec: `NetworkState::is_connected`, used by the
scheduler's pacing step. Its implementation lives in the crate's
`protocol/mod.rs`, which is not under `src/`; the spec (section 4.4) gates
the APS traffic on the network state being Connected. -/
def NetworkState.isConnected : NetworkState → Bool
  | .NetConnected => true
  | _ => false

structure DeviceState where
  networkState : NetworkState
  apsdeDataConfirm : Bool
  apsdeDataIndication : Bool
  configurationChanged : Bool
  apsdeDataRequestFreeSlots : Bool
deriving DecidableEq, Repr

/-- `impl From of u8 for DeviceState`: network state from the low two bits,
and the four pending flags via `flags & flag == flag`. -/
def DeviceState.fromByte (flags : Nat) : DeviceState :=
  { networkState := NetworkState.fromMaskedByte flags
    apsdeDataConfirm := flags.testBit 2
    apsdeDataIndication := flags.testBit 3
    configurationChanged := flags.testBit 4
    apsdeDataRequestFreeSlots := flags.testBit 5 }

/-! ## Cursor-based body readers
The `bytes::Buf` accessors used by the response parsers. A read past the
end of the buffer aborts the task in the source; here it is `none`. -/

def readU8 : List Nat → Option (Nat × List Nat)
  | [] => none
  | b :: rest => some (b, rest)

def readU16le (l : List Nat) : Option (Nat × List Nat) := do
  let (b0, l) ← readU8 l
  let (b1, l) ← readU8 l
  some (b0 + 256 * b1, l)

def readU32le (l : List Nat) : Option (Nat × List Nat) := do
  let (w0, l) ← readU16le l
  let (w1, l) ← readU16le l
  some (w0 + 65536 * w1, l)

def readU64le (l : List Nat) : Option (Nat × List Nat) := do
  let (d0, l) ← readU32le l
  let (d1, l) ← readU32le l
  some (d0 + 4294967296 * d1, l)

/-- `get_i8`: one byte reinterpreted as a signed value. -/
def readI8 (l : List Nat) : Option (Int × List Nat) :=
  (readU8 l).map (fun p => (if p.1 < 128 then (p.1 : Int) else (p.1 : Int) - 256, p.2))

/-- `copy_to_slice` into a buffer of length `n`. -/
def readBytes (n : Nat) (l : List Nat) : Option (List Nat × List Nat) :=
  if n ≤ l.length then some (l.take n, l.drop n) else none

/-- Sequencing of cursor reads: run a read, feed the value and the
remaining bytes to the continuation; a failed read aborts the parse. -/
def pbind {α β : Type} (x : Option (α × List Nat)) (f : α → List Nat → Option β) :
    Option β :=
  match x with
  | none => none
  | some (a, l) => f a l

/-! ## APS addresses
`src/deconz/src/protocol/aps/mod.rs`. -/

inductive DestinationAddress where
  | GroupAddress (addr : Nat)
  | NetworkAddress (addr : Nat)
  | IEEEAddress (addr : Nat)
deriving DecidableEq, Repr

inductive SourceAddress where
  | NetworkAddress (addr : Nat)
  | IEEEAddress (addr : Nat)
  | Both (networkAddress : Nat) (ieeeAddress : Nat)
deriving DecidableEq, Repr

/-- `SourceAddress::from_frame`: mode byte 0x02 reads a u16 network address,
0x03 a u64 IEEE address, 0x04 both; any other mode byte aborts (`none`). -/
def SourceAddress.fromFrame (l : List Nat) : Option (SourceAddress × List Nat) :=
  pbind (readU8 l) fun mode l =>
  if mode = 2 then (readU16le l).map (fun p => (.NetworkAddress p.1, p.2))
  else if mode = 3 then (readU64le l).map (fun p => (.IEEEAddress p.1, p.2))
  else if mode = 4 then
    pbind (readU16le l) fun networkAddress l =>
    pbind (readU64le l) fun ieeeAddress l =>
    some (.Both networkAddress ieeeAddress, l)
  else none

/-- The destination-address match shared by the indication and confirm
parsers: mode 0x01 group(u16), 0x02 network(u16), 0x03 IEEE(u64); any
other mode byte aborts (`none`). -/
def readDestinationAddress (mode : Nat) (l : List Nat) :
    Option (DestinationAddress × List Nat) :=
  if mode = 1 then (readU16le l).map (fun p => (.GroupAddress p.1, p.2))
  else if mode = 2 then (readU16le l).map (fun p => (.NetworkAddress p.1, p.2))
  else if mode = 3 then (readU64le l).map (fun p => (.IEEEAddress p.1, p.2))
  else none

/-! ## APS response parsers
`src/src/deconz/protocol/aps/data_indication.rs`,
`src/src/deconz/protocol/aps/data_confirm.rs`,
`src/deconz/src/protocol/device.rs`,
`src/deconz/src/protocol/mac/poll_indication.rs`,
`src/deconz/src/protocol/mac/beacon_indication.rs`. -/

structure ReadReceivedDataResponse where
  deviceState : DeviceState
  destinationAddress : DestinationAddress
  destinationEndpoint : Nat
  sourceAddress : SourceAddress
  sourceEndpoint : Nat
  profileId : Nat
  clusterId : Nat
  applicationSpecificDataUnit : List Nat
  linkQualityIndication : Nat
  receivedSignalStrengthIndication : Int
deriving DecidableEq, Repr

/-- `ReadReceivedDataResponse::from_frame` over the frame's payload bytes:
the trailing reserved bytes, link quality and signal strength. -/
def ReadReceivedDataResponse.fromFrameTail (l : List Nat) :
    Option ((Nat × Int) × List Nat) :=
  pbind (readU8 l) fun _ l =>
  pbind (readU8 l) fun _ l =>
  pbind (readU8 l) fun linkQualityIndication l =>
  pbind (readU8 l) fun _ l =>
  pbind (readU8 l) fun _ l =>
  pbind (readU8 l) fun _ l =>
  pbind (readU8 l) fun _ l =>
  pbind (readI8 l) fun receivedSignalStrengthIndication l =>
  some ((linkQualityIndication, receivedSignalStrengthIndication), l)

/-- `ReadReceivedDataResponse::from_frame` over the frame's payload bytes. -/
def ReadReceivedDataResponse.fromFrame (l : List Nat) :
    Option (ReadReceivedDataResponse × Option DeviceState) :=
  pbind (readU16le l) fun _payloadLength l =>
  pbind (readU8 l) fun flags l =>
  let deviceState := DeviceState.fromByte flags
  pbind (readU8 l) fun destinationAddressMode l =>
  pbind (readDestinationAddress destinationAddressMode l) fun destinationAddress l =>
  pbind (readU8 l) fun destinationEndpoint l =>
  pbind (SourceAddress.fromFrame l) fun sourceAddress l =>
  pbind (readU8 l) fun sourceEndpoint l =>
  pbind (readU16le l) fun profileId l =>
  pbind (readU16le l) fun clusterId l =>
  pbind (readU16le l) fun asduLength l =>
  pbind (readBytes asduLength l) fun applicationSpecificDataUnit l =>
  pbind (ReadReceivedDataResponse.fromFrameTail l) fun lqiRssi _ =>
  some (⟨deviceState, destinationAddress, destinationEndpoint, sourceAddress,
         sourceEndpoint, profileId, clusterId, applicationSpecificDataUnit,
         lqiRssi.1, lqiRssi.2⟩,
        some deviceState)

structure ReadConfirmDataResponse where
  deviceState : DeviceState
  requestId : Nat
  destinationAddress : DestinationAddress
  destinationEndpoint : Option Nat
  sourceEndpoint : Nat
  confirmStatus : Nat
deriving DecidableEq, Repr

/-- The optional destination endpoint of a confirm response: present for
destination address modes 0x02 and 0x03, absent otherwise. -/
def readConfirmDestinationEndpoint (mode : Nat) (l : List Nat) :
    Option (Option Nat × List Nat) :=
  if mode = 2 ∨ mode = 3 then (readU8 l).map (fun p => (some p.1, p.2))
  else some (none, l)

/-- `ReadConfirmDataResponse::from_frame` over the frame's payload bytes. -/
def ReadConfirmDataResponse.fromFrame (l : List Nat) :
    Option (ReadConfirmDataResponse × Option DeviceState) :=
  pbind (readU16le l) fun _payloadLength l =>
  pbind (readU8 l) fun flags l =>
  let deviceState := DeviceState.fromByte flags
  pbind (readU8 l) fun requestId l =>
  pbind (readU8 l) fun destinationAddressMode l =>
  pbind (readDestinationAddress destinationAddressMode l) fun destinationAddress l =>
  pbind (readConfirmDestinationEndpoint destinationAddressMode l) fun destinationEndpoint l =>
  pbind (readU8 l) fun sourceEndpoint l =>
  pbind (readU8 l) fun confirmStatus _ =>
  some (⟨deviceState, requestId, destinationAddress, destinationEndpoint,
         sourceEndpoint, confirmStatus⟩,
        some deviceState)

/-- `ReadDeviceStateResponse::from_frame`: one flag byte, surfaced as the
observed device state. -/
def ReadDeviceStateResponse.fromFrame (l : List Nat) :
    Option (DeviceState × Option DeviceState) :=
  pbind (readU8 l) fun flags _ =>
  let deviceState := DeviceState.fromByte flags
  some (deviceState, some deviceState)

structure MACPollIndication where
  sourceAddress : SourceAddress
  linkQualityIndicator : Nat
  receivedSignalStrengthIndication : Int
  neighborTableState : Option (Nat × Nat)
deriving DecidableEq, Repr

/-- The optional neighbor-table tail of a poll indication: read when bytes
remain, absent otherwise. -/
def readNeighborTableState (l : List Nat) : Option (Option (Nat × Nat) × List Nat) :=
  match l with
  | [] => some (none, [])
  | _ =>
    pbind (readU32le l) fun lifeTime l =>
    pbind (readU32le l) fun deviceTimeout l =>
    some (some (lifeTime, deviceTimeout), l)

/-- `MACPollIndication::from_frame`; carries no device-state update. -/
def MACPollIndication.fromFrame (l : List Nat) :
    Option (MACPollIndication × Option DeviceState) :=
  pbind (readU16le l) fun _payloadLength l =>
  pbind (SourceAddress.fromFrame l) fun sourceAddress l =>
  pbind (readU8 l) fun linkQualityIndicator l =>
  pbind (readI8 l) fun receivedSignalStrengthIndication l =>
  pbind (readNeighborTableState l) fun neighborTableState _ =>
  some (⟨sourceAddress, linkQualityIndicator, receivedSignalStrengthIndication,
         neighborTableState⟩,
        none)

structure MACBeaconIndication where
  sourceAddress : SourceAddress
  networkPanId : Nat
  channel : Nat
  flags : Nat
  updateId : Nat
  data : Option (List Nat)
deriving DecidableEq, Repr

/-- `MACBeaconIndication::from_frame`; carries no device-state update. -/
def MACBeaconIndication.fromFrame (l : List Nat) :
    Option (MACBeaconIndication × Option DeviceState) :=
  pbind (readU16le l) fun _payloadLength l =>
  pbind (readU16le l) fun shortAddress l =>
  let sourceAddress := SourceAddress.NetworkAddress shortAddress
  pbind (readU16le l) fun networkPanId l =>
  pbind (readU8 l) fun channel l =>
  pbind (readU8 l) fun flags l =>
  pbind (readU8 l) fun updateId l =>
  let data := match l with
    | [] => (none : Option (List Nat))
    | _ => some l
  some (⟨sourceAddress, networkPanId, channel, flags, updateId, data⟩, none)

/-! ## The scheduler queue
`DeconzQueue` in `src/deconz/src/client/queue.rs`. The in-flight
`HashMap of CommandId to HashMap of u8 to InFlightCommand` is embedded as a
flat association list keyed by `(command id, sequence id)`; insertion
replaces the entry with the same key exactly as `HashMap::insert` does, so
the entry count of the list matches the sum of the inner map sizes. -/

def MAX_IN_FLIGHT_COMMANDS : Nat := 16

inductive ApsDataRequestStatus where
  | PendingNextDeviceUpdate
  | SlotsAvailable
  | SlotsFull
deriving DecidableEq, Repr

/-- `ApsDataRequestStatus::has_slots_available`. -/
def ApsDataRequestStatus.hasSlotsAvailable : ApsDataRequestStatus → Bool
  | .SlotsAvailable => true
  | _ => false

/-- `InFlightCommand`: an external entry carries the caller's one-shot
response continuation, which consumes the frame and may surface a
piggybacked device state. -/
inductive InFlightCommand where
  | External (responseParser : IncomingFrame → Option DeviceState)
  | Internal

structure InFlightEntry where
  commandId : CommandId
  sequenceId : Nat
  command : InFlightCommand

/-- `EnqueuedCommand`: the boxed request is embedded as its command id and
serialized payload. -/
structure EnqueuedCommand where
  commandId : CommandId
  payload : Option (List Nat)
  inFlightCommand : InFlightCommand

structure QueueState where
  nextSequenceId : Nat
  deviceState : Option DeviceState
  enqueuedCommands : List EnqueuedCommand
  enqueuedApsDataRequestCommands : List EnqueuedCommand
  inFlightCommands : List InFlightEntry
  apsDataRequestStatus : ApsDataRequestStatus

/-- `DeconzQueue::new`. -/
def initialState : QueueState :=
  { nextSequenceId := 0
    deviceState := none
    enqueuedCommands := []
    enqueuedApsDataRequestCommands := []
    inFlightCommands := []
    apsDataRequestStatus := .PendingNextDeviceUpdate }

/-- `DeconzQueue::enqueue_command`: APS data submissions go to their own
queue, every other command id to the general queue. -/
def enqueueCommand (s : QueueState) (c : EnqueuedCommand) : QueueState :=
  match c.commandId with
  | .ApsDataRequest =>
    { s with enqueuedApsDataRequestCommands := s.enqueuedApsDataRequestCommands ++ [c] }
  | _ => { s with enqueuedCommands := s.enqueuedCommands ++ [c] }

/-- `DeconzQueue::update_device_state`: recompute the APS submission signal
from the free-slots flag, then record the observation. -/
def updateDeviceState (s : QueueState) (deviceState : DeviceState) : QueueState :=
  { s with
    apsDataRequestStatus :=
      if deviceState.apsdeDataRequestFreeSlots then .SlotsAvailable else .SlotsFull
    deviceState := some deviceState }

/-- `DeconzQueue::has_in_flight_command_for_command_id`. -/
def hasInFlightFor (s : QueueState) (commandId : CommandId) : Bool :=
  s.inFlightCommands.any (fun e => e.commandId == commandId)

/-- `DeconzQueue::num_in_flight_commands`. -/
def numInFlightCommands (s : QueueState) : Nat :=
  s.inFlightCommands.length

/-- `DeconzQueue::in_flight_commands_full`. -/
def inFlightCommandsFull (s : QueueState) : Bool :=
  MAX_IN_FLIGHT_COMMANDS ≤ numInFlightCommands s

def keyMatches (commandId : CommandId) (sequenceId : Nat) (e : InFlightEntry) : Bool :=
  e.commandId == commandId && e.sequenceId == sequenceId

/-- The lookup half of `DeconzQueue::take_in_flight_command`. -/
def lookupInFlight (s : QueueState) (commandId : CommandId) (sequenceId : Nat) :
    Option InFlightEntry :=
  s.inFlightCommands.find? (keyMatches commandId sequenceId)

/-- The removal half of `DeconzQueue::take_in_flight_command`
(`HashMap::remove` on the inner map). -/
def removeInFlight (s : QueueState) (commandId : CommandId) (sequenceId : Nat) :
    QueueState :=
  { s with inFlightCommands :=
      s.inFlightCommands.filter (fun e => ! keyMatches commandId sequenceId e) }

structure SentFrame where
  commandId : CommandId
  sequenceId : Nat
  payload : Option (List Nat)

/-- `DeconzQueue::send_command`: allocate the next sequence id (wrapping),
record the in-flight entry (`HashMap::insert`, replacing an entry with the
same key), and write the frame out. -/
def sendCommand (s : QueueState) (c : EnqueuedCommand) : QueueState × SentFrame :=
  let sequenceId := s.nextSequenceId
  let s := { s with
    nextSequenceId := (s.nextSequenceId + 1) % 256
    inFlightCommands :=
      ⟨c.commandId, sequenceId, c.inFlightCommand⟩ ::
        s.inFlightCommands.filter (fun e => ! keyMatches c.commandId sequenceId e) }
  (s, ⟨c.commandId, sequenceId, c.payload⟩)

/-- `EnqueuedCommand::new_internal(ReadDeviceState::new())`: payload is the
three reserved bytes of `ReadDeviceStateRequest::payload_data`. -/
def readDeviceStateCommand : EnqueuedCommand := ⟨.DeviceState, some [0, 0, 0], .Internal⟩

/-- `EnqueuedCommand::new_internal(ReadReceivedData::new())`: payload is the
single flag byte 0x04 of `ReadReceivedDataRequest::payload_data`. -/
def readReceivedDataCommand : EnqueuedCommand := ⟨.ApsDataIndication, some [0x04], .Internal⟩

/-- `EnqueuedCommand::new_internal(ReadConfirmData::new())`: payload is the
explicit empty body of `ReadConfirmDataRequest::payload_data`. -/
def readConfirmDataCommand : EnqueuedCommand := ⟨.ApsDataConfirm, some [], .Internal⟩

/-- `DeconzQueue::send_device_state_request`. -/
def sendDeviceStateRequest (s : QueueState) : QueueState × List SentFrame :=
  if hasInFlightFor s .DeviceState then (s, [])
  else
    let r := sendCommand s readDeviceStateCommand
    (r.1, [r.2])

/-- `DeconzQueue::send_aps_data_indication_read_request`. -/
def sendApsDataIndicationReadRequest (s : QueueState) : QueueState × List SentFrame :=
  if hasInFlightFor s .ApsDataIndication then (s, [])
  else
    let r := sendCommand s readReceivedDataCommand
    (r.1, [r.2])

/-- `DeconzQueue::send_aps_data_confirm_read_request`. -/
def sendApsDataConfirmReadRequest (s : QueueState) : QueueState × List SentFrame :=
  if hasInFlightFor s .ApsDataConfirm then (s, [])
  else
    let r := sendCommand s readConfirmDataCommand
    (r.1, [r.2])

/-- `DeconzQueue::try_send_aps_data_request`: eligible only with slots
available and the in-flight window under the cap; pops one submission, sets
the signal to pending, and sends. The boolean records whether a submission
was sent. -/
def trySendApsDataRequest (s : QueueState) : QueueState × List SentFrame × Bool :=
  if ! s.apsDataRequestStatus.hasSlotsAvailable || inFlightCommandsFull s then
    (s, [], false)
  else
    match s.enqueuedApsDataRequestCommands with
    | [] => (s, [], false)
    | c :: rest =>
      let s := { s with
        enqueuedApsDataRequestCommands := rest
        apsDataRequestStatus := .PendingNextDeviceUpdate }
      let r := sendCommand s c
      (r.1, [r.2], true)

/-- The `while !self.in_flight_commands_full()` drain of the general queue
at the end of `try_io`; the fuel is the queue length at entry, which bounds
the number of iterations since each iteration pops one entry. -/
def drainLoop (fuel : Nat) (s : QueueState) : QueueState × List SentFrame :=
  match fuel with
  | 0 => (s, [])
  | fuel + 1 =>
    if inFlightCommandsFull s then (s, [])
    else
      match s.enqueuedCommands with
      | [] => (s, [])
      | c :: rest =>
        let r := sendCommand { s with enqueuedCommands := rest } c
        let r2 := drainLoop fuel r.1
        (r2.1, r.2 :: r2.2)

structure TryIoResult where
  state : QueueState
  sent : List SentFrame
  apsSubmitted : Bool

/-- The connected block of `try_io`: send the pending internal
indication/confirm reads and attempt one APS submission. -/
def tryIoConnected (deviceState : DeviceState) (s : QueueState) :
    QueueState × List SentFrame × Bool :=
  if deviceState.networkState.isConnected then
    let ra := if deviceState.apsdeDataIndication
      then sendApsDataIndicationReadRequest s else (s, [])
    let rb := if deviceState.apsdeDataConfirm
      then sendApsDataConfirmReadRequest ra.1 else (ra.1, [])
    let rc := trySendApsDataRequest rb.1
    (rc.1, ra.2 ++ rb.2 ++ rc.2.1, rc.2.2)
  else (s, [], false)

/-- `DeconzQueue::try_io`: request a device state if none was observed yet
(and return); otherwise run the connected block, then drain the general
queue while the in-flight window is under the cap. -/
def tryIo (s : QueueState) : TryIoResult :=
  match s.deviceState with
  | none =>
    let r := sendDeviceStateRequest s
    ⟨r.1, r.2, false⟩
  | some deviceState =>
    let r1 := tryIoConnected deviceState s
    let r2 := drainLoop r1.1.enqueuedCommands.length r1.1
    ⟨r2.1, r1.2.1 ++ r2.2, r1.2.2⟩

/-! ## Incoming-frame dispatch
`DeconzQueue::handle_deconz_frame`. Besides the successor state the
embedding records the observable effects of a dispatch — which external
continuation was invoked and what was broadcast — and the device-state
observation that the dispatch applied (if any). A `none` result models the
source aborting inside a response parser. -/

inductive DispatchEffect where
  | invoked (commandId : CommandId) (sequenceId : Nat) (frame : IncomingFrame)
  | broadcastApsDataIndication (response : ReadReceivedDataResponse)

/-- `DeconzQueue::handle_in_flight_command_internal_response`: interpret an
internal response by command id; unhandled ids are logged and yield no
device state. -/
def handleInternalResponse (s : QueueState) (f : IncomingFrame) :
    Option (QueueState × List DispatchEffect × Option DeviceState) :=
  match f.commandId with
  | .ApsDataIndication =>
    (ReadReceivedDataResponse.fromFrame f.payload).map
      (fun p => (s, [.broadcastApsDataIndication p.1], p.2))
  | .ApsDataConfirm =>
    (ReadConfirmDataResponse.fromFrame f.payload).map (fun p => (s, [], p.2))
  | .DeviceState =>
    (ReadDeviceStateResponse.fromFrame f.payload).map (fun p => (s, [], p.2))
  | _ => some (s, [], none)

/-- The body of `DeconzQueue::handle_deconz_frame` up to the final
device-state application: unsolicited ids are interpreted directly, every
other id goes through `take_in_flight_command`. -/
def dispatchCore (s : QueueState) (f : IncomingFrame) :
    Option (QueueState × List DispatchEffect × Option DeviceState) :=
  match f.commandId with
  | .DeviceStateChanged =>
    pbind (readU8 f.payload) fun flags _ =>
    some (s, [], some (DeviceState.fromByte flags))
  | .MacBeaconIndication =>
    (MACBeaconIndication.fromFrame f.payload).map (fun p => (s, [], p.2))
  | .MacPollIndication =>
    (MACPollIndication.fromFrame f.payload).map (fun p => (s, [], p.2))
  | _ =>
    match lookupInFlight s f.commandId f.sequenceId with
    | some entry =>
      let s' := removeInFlight s f.commandId f.sequenceId
      match entry.command with
      | .External responseParser =>
        some (s', [.invoked f.commandId f.sequenceId f], responseParser f)
      | .Internal => handleInternalResponse s' f
    | none => some (s, [], none)

/-- `DeconzQueue::handle_deconz_frame`: run the dispatch body, then apply
the observed device state (if any) via `update_device_state`. -/
def handleDeconzFrame (s : QueueState) (f : IncomingFrame) :
    Option (QueueState × List DispatchEffect × Option DeviceState) :=
  (dispatchCore s f).map (fun r =>
    (match r.2.2 with
     | some deviceState => updateDeviceState r.1 deviceState
     | none => r.1,
     r.2.1, r.2.2))

/-! ## The scheduler transition system
One task drives the queue (`DeconzTask::run` in
`src/deconz/src/client/task.rs`): each turn either runs the pacing step
`try_io`, dispatches one incoming frame, or consumes one inbox message. A
command request from a handle always arrives with an external continuation
(`handle_task_message`), and the command id of any request type defined in
the repository's catalog is one of `catalogRequestIds`. -/

/-- The command ids of the `DeconzCommandRequest` implementations in the
repository (firmware version, device state, change network state,
read/write parameter, APS indication read, APS confirm read, APS data
submission). -/
def catalogRequestIds : List CommandId :=
  [.Version, .DeviceState, .ChangeNetworkState, .ReadParameter, .WriteParameter,
   .ApsDataIndication, .ApsDataConfirm, .ApsDataRequest]

inductive Label where
  | enqueue
  | pace
  | paceApsSend
  | dispatchTau
  | dispatchObserve (deviceState : DeviceState)

inductive Step : QueueState → Label → QueueState → Prop where
  | enqueue (s : QueueState) (commandId : CommandId) (payload : Option (List Nat))
      (responseParser : IncomingFrame → Option DeviceState)
      (hc : commandId ∈ catalogRequestIds) :
      Step s .enqueue (enqueueCommand s ⟨commandId, payload, .External responseParser⟩)
  | pace (s : QueueState) (h : (tryIo s).apsSubmitted = false) :
      Step s .pace (tryIo s).state
  | paceApsSend (s : QueueState) (h : (tryIo s).apsSubmitted = true) :
      Step s .paceApsSend (tryIo s).state
  | dispatchTau (s : QueueState) (f : IncomingFrame) (s' : QueueState)
      (effects : List DispatchEffect)
      (h : handleDeconzFrame s f = some (s', effects, none)) :
      Step s .dispatchTau s'
  | dispatchObserve (s : QueueState) (f : IncomingFrame) (s' : QueueState)
      (effects : List DispatchEffect) (deviceState : DeviceState)
      (h : handleDeconzFrame s f = some (s', effects, some deviceState)) :
      Step s (.dispatchObserve deviceState) s'

def stepAny (a b : QueueState) : Prop := ∃ l, Step a l b

/-- States reachable from the freshly constructed queue. -/
inductive Reachable : QueueState → Prop where
  | init : Reachable initialState
  | step {a b : QueueState} : Reachable a → stepAny a b → Reachable b

/-- A labelled execution fragment. -/
inductive Path : QueueState → List Label → QueueState → Prop where
  | nil (s : QueueState) : Path s [] s
  | cons {a b c : QueueState} {l : Label} {ls : List Label} :
      Step a l b → Path b ls c → Path a (l :: ls) c

/-- Whether a label carries a device-state observation. -/
def Label.isObserve : Label → Bool
  | .dispatchObserve _ => true
  | _ => false

/-! ## Invariants and concrete execution states used by the claims -/

/-- The command ids the dispatch treats as unconditionally unsolicited. -/
def unsolicitedIds : List CommandId :=
  [.DeviceStateChanged, .MacBeaconIndication, .MacPollIndication]

/-- Structural well-formedness of a queue state: every in-flight entry and
every general-queue entry carries a catalog command id, and the APS
submission queue holds only `ApsDataRequest` commands (guaranteed by the
routing in `enqueue_command`). -/
def WellFormed (s : QueueState) : Prop :=
  (∀ e ∈ s.inFlightCommands, e.commandId ∈ catalogRequestIds) ∧
  (∀ c ∈ s.enqueuedCommands, c.commandId ∈ catalogRequestIds) ∧
  (∀ c ∈ s.enqueuedApsDataRequestCommands, c.commandId = .ApsDataRequest)

/-- The actual bound respected by the in-flight window: the cap of 16 is
checked only by the general-queue drain and the APS submission path, while
the internal indication/confirm reads are sent without a cap check and are
each gated only by the absence of an in-flight entry of their own id. -/
def CapBound (s : QueueState) : Nat :=
  16 + (if hasInFlightFor s .ApsDataIndication then 1 else 0) +
    (if hasInFlightFor s .ApsDataConfirm then 1 else 0)

/-- The inductive invariant for the in-flight window: the count respects
`CapBound`, and before the first device-state observation the map holds at
most the single internal device-state read. -/
def CapInv (s : QueueState) : Prop :=
  numInFlightCommands s ≤ CapBound s ∧
  (s.deviceState = none →
    (∀ e ∈ s.inFlightCommands, e.commandId = .DeviceState) ∧
    numInFlightCommands s ≤ 1)

/-- A caller continuation that discards the response. -/
def trivialParser : IncomingFrame → Option DeviceState := fun _ => none

/-- A Version command request as enqueued for an external caller. -/
def versionEnqueued : EnqueuedCommand := ⟨.Version, some [0, 0], .External trivialParser⟩

/-- `n` consecutive enqueues of the Version command. -/
def enqueueVersionN : Nat → QueueState → QueueState
  | 0, s => s
  | n + 1, s => enqueueVersionN n (enqueueCommand s versionEnqueued)

/-- An unsolicited `DeviceStateChanged` frame with the given flag byte. -/
def deviceStateChangedFrame (flags : Nat) : IncomingFrame :=
  ⟨.DeviceStateChanged, 0, .Success, [flags]⟩

/-- Sixteen Version commands enqueued on the fresh queue. -/
def c2StateQueued : QueueState := enqueueVersionN 16 initialState

/-- ... after observing device state 0x02 (connected, nothing pending). -/
def c2StateConnected : QueueState :=
  updateDeviceState c2StateQueued (DeviceState.fromByte 0x02)

/-- ... after one pacing step, which drains all sixteen commands. -/
def c2StateFull : QueueState := (tryIo c2StateConnected).state

/-- ... after observing device state 0x0A (connected, indication pending). -/
def c2StateIndication : QueueState :=
  updateDeviceState c2StateFull (DeviceState.fromByte 0x0A)

/-- ... after one more pacing step, which sends the internal indication
read without a cap check. -/
def c2StateOver : QueueState := (tryIo c2StateIndication).state

/-- A queue state with slots available, a connected device state and one
queued APS submission. -/
def c6SlotsState : QueueState :=
  enqueueCommand (updateDeviceState initialState (DeviceState.fromByte 0x22))
    ⟨.ApsDataRequest, none, .Internal⟩

/-- The fresh queue after observing device state 0x02. -/
def c8StateConnected : QueueState :=
  updateDeviceState initialState (DeviceState.fromByte 0x02)

/-- ... with one Version command enqueued. -/
def c8StateEnqueued : QueueState := enqueueCommand c8StateConnected versionEnqueued

/-- ... after one pacing step: the Version command is in flight with an
external continuation under key (Version, 0). -/
def c8StateInFlight : QueueState := (tryIo c8StateEnqueued).state

/-- A response frame for the in-flight Version command. -/
def c8ResponseFrame : IncomingFrame := ⟨.Version, 0, .Success, [0, 5, 21, 38]⟩

/-- The fresh queue after observing device state 0x08: network Offline with
the indication-pending flag set. -/
def c9OffState : QueueState :=
  updateDeviceState initialState (DeviceState.fromByte 0x08)

/-- The fresh queue after observing device state 0x0A: Connected with the
indication-pending flag set. -/
def c9ReadyState : QueueState :=
  updateDeviceState initialState (DeviceState.fromByte 0x0A)

/-- The packet produced for a Version request carrying a 65529-byte body:
`frame_len` is 5 + 2 + 65529 = 65536, so the `as u16` cast wraps and the
total_length field on the wire is 0, while the payload-length field is
F9 FF (65529) followed by the body. -/
def c7OverflowPacket : List Nat :=
  [0x0D, 0, 0, 0, 0] ++ [0xF9, 0xFF] ++ List.replicate 65529 0

/-! ## Claim C1 -/

/-- C1 (code bug): the claim says a frame whose trailing two bytes differ
from the recomputed checksum is reported as a distinct CRC protocol error
and no frame is yielded. The stream `read_frame` instead yields a parsed
frame: `verify_frame` never compares the checksum (its body is a
`todo` comment). Here the 7-byte input ends in FF FF although the checksum
over the first five bytes is F4 FF, yet a parsed frame is returned. -/
theorem c1_crc_never_checked :
    readFrame [0x07, 0x00, 0x00, 0x05, 0x00, 0xFF, 0xFF] =
      .ok ⟨.DeviceState, 0, .Success, []⟩ ∧
    DeconzCrc.generate [0x07, 0x00, 0x00, 0x05, 0x00] = [0xF4, 0xFF] ∧
    [0xF4, 0xFF] ≠ [0xFF, 0xFF] := by
  refine ⟨rfl, by decide, by decide⟩

/-! ## Claim C3 -/

/-- C3 (code bug): encoding the Version request with sequence id 0 and the
2-byte reserved body yields total_length 9 and checksum E8 FF, not the
claimed (and unit-tested) bytes `0D 00 00 07 00 02 00 00 00 EA FF`: the
repository's own `test_frame` expects the checksum `DeconzCrc(234, 255)`,
which is the checksum of the total_length-7 packet, so the encoder
contradicts the repository's test. -/
theorem c3_version_encode_bug :
    encode (ReadFirmwareVersionRequest.asFrame 0) =
      some [0x0D, 0x00, 0x00, 0x09, 0x00, 0x02, 0x00, 0x00, 0x00, 0xE8, 0xFF] ∧
    encode (ReadFirmwareVersionRequest.asFrame 0) ≠
      some [0x0D, 0x00, 0x00, 0x07, 0x00, 0x02, 0x00, 0x00, 0x00, 0xEA, 0xFF] ∧
    DeconzCrc.generate [0x0D, 0x00, 0x00, 0x09, 0x00, 0x02, 0x00, 0x00, 0x00] ≠
      [234, 255] ∧
    DeconzCrc.generate [0x0D, 0x00, 0x00, 0x07, 0x00, 0x02, 0x00, 0x00, 0x00] =
      [234, 255] := by
  refine ⟨rfl, ?_, by decide, by decide⟩
  intro h
  have h2 : ([0x0D, 0x00, 0x00, 0x09, 0x00, 0x02, 0x00, 0x00, 0x00, 0xE8, 0xFF] : List Nat) =
      [0x0D, 0x00, 0x00, 0x07, 0x00, 0x02, 0x00, 0x00, 0x00, 0xEA, 0xFF] := by
    have h1 : encode (ReadFirmwareVersionRequest.asFrame 0) =
        some [0x0D, 0x00, 0x00, 0x09, 0x00, 0x02, 0x00, 0x00, 0x00, 0xE8, 0xFF] := rfl
    exact Option.some_injective _ (h1 ▸ h)
  exact absurd h2 (by decide)

/-! ## Claim C5 -/

/-- C5 (code bug): decoding a frame whose status byte is 0x08 is claimed to
fail with the distinct `UnknownStatusCode` protocol error; the source's
`TryFrom` for `StatusCode` instead falls through to
`UnknownCommandId`, so the two error cases are not distinct in the code. -/
theorem c5_unknown_status_byte_error :
    parseIncoming [0x07, 0x00, 0x08, 0x05, 0x00] =
      .error (.UnknownCommandId 0x08) ∧
    StatusCode.fromByte 0x08 = .error (.UnknownCommandId 0x08) ∧
    ProtocolError.UnknownCommandId 0x08 ≠ ProtocolError.UnknownStatusCode 0x08 := by
  refine ⟨rfl, rfl, by decide⟩

/-! ## Claim C10 -/

/-- C10 (confirmed): the APS indication, APS confirm and MAC poll parsers
are partial over their address-mode bytes: a source-address-mode byte
outside 0x02–0x04 or a destination-address-mode byte outside 0x01–0x03
aborts the parse (the source panics; `none` here), rather than producing
any error value — the parsers' types have no error channel. -/
theorem c10_address_mode_aborts :
    (∀ mode rest, mode ≠ 2 → mode ≠ 3 → mode ≠ 4 →
      SourceAddress.fromFrame (mode :: rest) = none) ∧
    (∀ p0 p1 flags mode rest, mode ≠ 1 → mode ≠ 2 → mode ≠ 3 →
      ReadReceivedDataResponse.fromFrame (p0 :: p1 :: flags :: mode :: rest) = none) ∧
    (∀ p0 p1 flags a0 a1 dep mode rest, mode ≠ 2 → mode ≠ 3 → mode ≠ 4 →
      ReadReceivedDataResponse.fromFrame
        (p0 :: p1 :: flags :: 1 :: a0 :: a1 :: dep :: mode :: rest) = none) ∧
    (∀ p0 p1 flags rid mode rest, mode ≠ 1 → mode ≠ 2 → mode ≠ 3 →
      ReadConfirmDataResponse.fromFrame
        (p0 :: p1 :: flags :: rid :: mode :: rest) = none) ∧
    (∀ p0 p1 mode rest, mode ≠ 2 → mode ≠ 3 → mode ≠ 4 →
      MACPollIndication.fromFrame (p0 :: p1 :: mode :: rest) = none) := by
  refine ⟨?_, ?_, ?_, ?_, ?_⟩
  · intro mode rest h2 h3 h4
    simp [SourceAddress.fromFrame, pbind, readU8, h2, h3, h4]
  · intro p0 p1 flags mode rest h1 h2 h3
    simp [ReadReceivedDataResponse.fromFrame, readDestinationAddress, pbind,
      readU8, readU16le, h1, h2, h3]
  · intro p0 p1 flags a0 a1 dep mode rest h2 h3 h4
    simp [ReadReceivedDataResponse.fromFrame, readDestinationAddress,
      SourceAddress.fromFrame, pbind, readU8, readU16le, h2, h3, h4]
  · intro p0 p1 flags rid mode rest h1 h2 h3
    simp [ReadConfirmDataResponse.fromFrame, readDestinationAddress, pbind,
      readU8, readU16le, h1, h2, h3]
  · intro p0 p1 mode rest h2 h3 h4
    simp [MACPollIndication.fromFrame, SourceAddress.fromFrame, pbind,
      readU8, readU16le, h2, h3, h4]

/-- Witness for C10 at concrete mode bytes (0x00 and 0x05). -/
theorem c10_address_mode_aborts_witness :
    SourceAddress.fromFrame [0] = none ∧
    ReadReceivedDataResponse.fromFrame [0, 0, 0, 5] = none ∧
    ReadReceivedDataResponse.fromFrame [0, 0, 0, 1, 0, 0, 9, 0] = none ∧
    ReadConfirmDataResponse.fromFrame [0, 0, 0, 7, 5] = none ∧
    MACPollIndication.fromFrame [0, 0, 5] = none :=
  ⟨c10_address_mode_aborts.1 0 [] (by decide) (by decide) (by decide),
   c10_address_mode_aborts.2.1 0 0 0 5 [] (by decide) (by decide) (by decide),
   c10_address_mode_aborts.2.2.1 0 0 0 0 0 9 0 [] (by decide) (by decide) (by decide),
   c10_address_mode_aborts.2.2.2.1 0 0 0 7 5 [] (by decide) (by decide) (by decide),
   c10_address_mode_aborts.2.2.2.2 0 0 5 [] (by decide) (by decide) (by decide)⟩

/-! ## Claim C4 -/

/-- C4 counterexample: a 10-byte input with total_length 5 and five payload
bytes is accepted by `parse_incoming`, but its five remaining payload bytes
exceed total_length − 5 = 0, contradicting the claimed consequence. -/
theorem c4_counterexample :
    parseIncoming [0x07, 0x00, 0x00, 0x05, 0x00, 1, 2, 3, 4, 5] =
      .ok ⟨.DeviceState, 0, .Success, [1, 2, 3, 4, 5]⟩ ∧
    ¬ ((5 : Nat) ≤ 5 - 5) ∧
    parseIncoming [0x07, 0x00, 0x00, 0x00, 0x00] =
      .ok ⟨.DeviceState, 0, .Success, []⟩ ∧
    ¬ ((5 : Nat) ≤ 0) := by
  refine ⟨rfl, by decide, rfl, by decide⟩

/-- C4 amended: `parse_incoming` rejects fewer than 5 bytes as too small and
rejects a remainder longer than total_length as too large (when the command
and status bytes decode); consequently every accepted frame keeps exactly
the bytes after the 5-byte header as payload and that remainder is at most
total_length — but total_length ≥ 5 and remainder ≤ total_length − 5 are
not enforced. -/
theorem c4_parse_incoming_bounds (bytes : List Nat) :
    (bytes.length < 5 → parseIncoming bytes = .error (.SmallFrame bytes.length)) ∧
    (∀ c s st l0 l1 rest f, bytes = c :: s :: st :: l0 :: l1 :: rest →
      parseIncoming bytes = .ok f →
      f.payload = rest ∧ rest.length ≤ l0 + 256 * l1) ∧
    (∀ c s st l0 l1 rest cmd stat, bytes = c :: s :: st :: l0 :: l1 :: rest →
      CommandId.fromByte c = .ok cmd → StatusCode.fromByte st = .ok stat →
      l0 + 256 * l1 < rest.length →
      parseIncoming bytes = .error (.LargeFrame rest.length)) := by
  refine ⟨?_, ?_, ?_⟩
  · intro hlen
    match bytes, hlen with
    | [], _ => rfl
    | [_], _ => rfl
    | [_, _], _ => rfl
    | [_, _, _], _ => rfl
    | [_, _, _, _], _ => rfl
    | _ :: _ :: _ :: _ :: _ :: _, hlen => simp at hlen; omega
  · intro c s st l0 l1 rest f hbytes hok
    subst hbytes
    simp only [parseIncoming] at hok
    split at hok
    · exact absurd hok (by simp)
    · split at hok
      · exact absurd hok (by simp)
      · split at hok
        · exact absurd hok (by simp)
        · cases hok
          exact ⟨rfl, by omega⟩
  · intro c s st l0 l1 rest cmd stat hbytes hcmd hstat hlarge
    subst hbytes
    simp [parseIncoming, hcmd, hstat, hlarge]

/-- Witness for C4 at concrete inputs: a 3-byte input is too small, the
accepted input `07 00 00 05 00 09` keeps payload `[9]` of length 1 ≤ 5, and
`07 00 00 00 00 09` is too large. -/
theorem c4_parse_incoming_bounds_witness :
    parseIncoming [1, 2, 3] = .error (.SmallFrame 3) ∧
    ((⟨.DeviceState, 0, .Success, [9]⟩ : IncomingFrame).payload = [9] ∧
      ([9] : List Nat).length ≤ 5 + 256 * 0) ∧
    parseIncoming [7, 0, 0, 0, 0, 9] = .error (.LargeFrame ([9] : List Nat).length) :=
  ⟨(c4_parse_incoming_bounds [1, 2, 3]).1 (by decide),
   (c4_parse_incoming_bounds [7, 0, 0, 5, 0, 9]).2.1 7 0 0 5 0 [9]
     ⟨.DeviceState, 0, .Success, [9]⟩ rfl rfl,
   (c4_parse_incoming_bounds [7, 0, 0, 0, 0, 9]).2.2 7 0 0 0 0 [9]
     .DeviceState .Success rfl rfl rfl (by decide)⟩

/-! ## Claim C7 -/

theorem commandId_fromByte_toByte (c : CommandId) :
    CommandId.fromByte c.toByte = .ok c := by
  cases c <;> rfl

theorem foldl_wrapping_add (l : List Nat) (a : Nat) :
    l.foldl (fun acc el => (acc + el) % 65536) (a % 65536) = (a + l.sum) % 65536 := by
  induction l generalizing a with
  | nil => simp
  | cons b t ih =>
    simp only [List.foldl_cons, List.sum_cons]
    have h1 : (a % 65536 + b) % 65536 = (a + b) % 65536 := by omega
    rw [h1, ih (a + b), Nat.add_assoc]

theorem wrappingByteSum_eq_sum_mod (l : List Nat) :
    wrappingByteSum l = l.sum % 65536 := by
  have h := foldl_wrapping_add l 0
  simpa [wrappingByteSum] using h

/-- The checksum law: the generated 16-bit value is the negated byte sum
modulo 2^16. -/
theorem crcValue_eq_neg_sum (l : List Nat) :
    crcValue l = ((-(l.sum : Int)) % 65536).toNat := by
  rw [crcValue, wrappingByteSum_eq_sum_mod]
  omega

/-- C7 counterexample: the unrestricted round-trip claim fails for bodies
of length 65529–65535. Encoding a Version request with a 65529-byte body
succeeds — `frame_len as u16` silently wraps, so the total_length field on
the wire is 0 — but decoding the produced packet after stripping the
2-byte checksum does not yield the body: it fails with a too-large error,
since the 65531 remaining bytes exceed the reported total length 0. -/
theorem parseIncoming_large (c s st l0 l1 : Nat) (rest : List Nat)
    (cmd : CommandId) (stat : StatusCode)
    (hcmd : CommandId.fromByte c = .ok cmd) (hstat : StatusCode.fromByte st = .ok stat)
    (hlarge : l0 + 256 * l1 < rest.length) :
    parseIncoming (c :: s :: st :: l0 :: l1 :: rest) =
      .error (.LargeFrame rest.length) := by
  simp [parseIncoming, hcmd, hstat, hlarge]

theorem headerBytes_some_eq (cmd : CommandId) (seq : Nat) (b : List Nat) :
    headerBytes ⟨cmd, seq, some b⟩ =
      [cmd.toByte, seq % 256, 0, (5 + (2 + b.length)) % 65536 % 256,
       (5 + (2 + b.length)) % 65536 / 256] := rfl

theorem packetBytes_some_of_le (cmd : CommandId) (seq : Nat) (b : List Nat)
    (h : ¬ 65535 < b.length) :
    packetBytes ⟨cmd, seq, some b⟩ =
      some (headerBytes ⟨cmd, seq, some b⟩ ++ [b.length % 256, b.length / 256] ++ b) := by
  simp only [packetBytes]
  rw [if_neg h]

theorem c7_counterexample :
    encode ⟨.Version, 0, some (List.replicate 65529 0)⟩ =
      some (c7OverflowPacket ++ DeconzCrc.generate c7OverflowPacket) ∧
    parseIncoming c7OverflowPacket = .error (.LargeFrame 65531) := by
  have hlen : (List.replicate 65529 (0 : Nat)).length = 65529 :=
    List.length_replicate ..
  have hh : headerBytes ⟨.Version, 0, some (List.replicate 65529 0)⟩ =
      [13, 0, 0, 0, 0] := by
    rw [headerBytes_some_eq, hlen]
    decide
  have hcond : ¬ (65535 < (List.replicate 65529 (0 : Nat)).length) := by
    rw [hlen]
    norm_num
  have hp : packetBytes ⟨.Version, 0, some (List.replicate 65529 0)⟩ =
      some c7OverflowPacket := by
    rw [packetBytes_some_of_le _ _ _ hcond, hh, hlen]
    unfold c7OverflowPacket
    norm_num
  constructor
  · unfold encode
    rw [hp]
    rfl
  · have hr : (([0xF9, 0xFF] ++ List.replicate 65529 0) : List Nat).length = 65531 := by
      rw [List.length_append, hlen]
      rfl
    have hsplit : c7OverflowPacket =
        13 :: 0 :: 0 :: 0 :: 0 :: ([0xF9, 0xFF] ++ List.replicate 65529 0) := by
      unfold c7OverflowPacket
      rfl
    rw [hsplit]
    have hlarge := parseIncoming_large 13 0 0 0 0
      ([0xF9, 0xFF] ++ List.replicate 65529 0) .Version .Success rfl rfl
      (by rw [hr]; norm_num)
    rw [hr] at hlarge
    exact hlarge

/-- C7 amended: for every command id, sequence id below 256 and optional
body whose length keeps the 16-bit total-length field from wrapping (at
most 65528), decoding the encoded outgoing frame after stripping the
trailing 2-byte checksum succeeds with the same command id, the same
sequence id and status 0; the decoded payload is the little-endian length
prefix followed by exactly the original body; and the trailing bytes are
the checksum of the preceding bytes, which obeys the law
`crc(b) = (-sum(b)) mod 2^16`. -/
theorem c7_encode_decode_roundtrip (cmd : CommandId) (seq : Nat)
    (body : Option (List Nat)) (hseq : seq < 256)
    (hlen : ∀ b, body = some b → b.length ≤ 65528) :
    ∃ packet,
      encode ⟨cmd, seq, body⟩ = some (packet ++ DeconzCrc.generate packet) ∧
      parseIncoming packet = .ok ⟨cmd, seq, .Success, packet.drop 5⟩ ∧
      (body = none → packet.drop 5 = []) ∧
      (∀ b, body = some b →
        packet.drop 5 = [b.length % 256, b.length / 256] ++ b ∧
        packet.drop 7 = b) ∧
      crcValue packet = ((-(packet.sum : Int)) % 65536).toNat := by
  cases body with
  | none =>
    refine ⟨headerBytes ⟨cmd, seq, none⟩, rfl, ?_, ?_, ?_, crcValue_eq_neg_sum _⟩
    · simp [headerBytes, parseIncoming, commandId_fromByte_toByte,
        Nat.mod_eq_of_lt hseq]
      rfl
    · intro _
      rfl
    · intro b hb
      cases hb
  | some b =>
    have hb : b.length ≤ 65528 := hlen b rfl
    have hfl : 5 + (2 + b.length) < 65536 := by omega
    refine ⟨headerBytes ⟨cmd, seq, some b⟩ ++ ([b.length % 256, b.length / 256] ++ b),
      ?_, ?_, by simp, ?_, crcValue_eq_neg_sum _⟩
    · simp only [encode, packetBytes]
      rw [if_neg (by omega)]
      simp [List.append_assoc]
    · have hrep : (5 + (2 + b.length)) % 65536 % 256 +
          256 * ((5 + (2 + b.length)) % 65536 / 256) = 5 + (2 + b.length) := by
        rw [Nat.mod_eq_of_lt hfl]
        omega
      simp only [headerBytes, List.cons_append, List.nil_append, parseIncoming,
        commandId_fromByte_toByte]
      rw [Nat.mod_eq_of_lt hseq]
      have hnotlt : ¬ ((5 + (2 + b.length)) % 65536 % 256 +
          256 * ((5 + (2 + b.length)) % 65536 / 256) <
            (b.length % 256 :: b.length / 256 :: b).length) := by
        rw [hrep]
        simp
        omega
      simp only [show StatusCode.fromByte 0 = .ok .Success from rfl]
      rw [if_neg hnotlt]
      rfl
    · intro b' hb'
      cases hb'
      constructor
      · simp [headerBytes]
      · simp [headerBytes]

/-! ## Scheduler lemmas -/

theorem sendCommand_status (s : QueueState) (c : EnqueuedCommand) :
    (sendCommand s c).1.apsDataRequestStatus = s.apsDataRequestStatus := rfl

theorem sendCommand_deviceState (s : QueueState) (c : EnqueuedCommand) :
    (sendCommand s c).1.deviceState = s.deviceState := rfl

theorem sendCommand_general (s : QueueState) (c : EnqueuedCommand) :
    (sendCommand s c).1.enqueuedCommands = s.enqueuedCommands := rfl

theorem sendCommand_apsQueue (s : QueueState) (c : EnqueuedCommand) :
    (sendCommand s c).1.enqueuedApsDataRequestCommands =
      s.enqueuedApsDataRequestCommands := rfl

theorem sendCommand_num_le (s : QueueState) (c : EnqueuedCommand) :
    numInFlightCommands (sendCommand s c).1 ≤ numInFlightCommands s + 1 := by
  simp only [sendCommand, numInFlightCommands, List.length_cons]
  exact Nat.succ_le_succ (List.length_filter_le _ _)

theorem sendCommand_frame (s : QueueState) (c : EnqueuedCommand) :
    (sendCommand s c).2 = ⟨c.commandId, s.nextSequenceId, c.payload⟩ := rfl

/-- Inserting an entry leaves the presence flag of every other command id
unchanged: the replaced entries share the inserted command id. -/
theorem hasInFlightFor_send_ne (s : QueueState) (c : EnqueuedCommand)
    (x : CommandId) (hx : c.commandId ≠ x) :
    hasInFlightFor (sendCommand s c).1 x = hasInFlightFor s x := by
  simp only [hasInFlightFor, sendCommand, List.any_cons]
  have h1 : (c.commandId == x) = false := by
    simp [hx]
  rw [h1]
  simp only [Bool.false_or]
  induction s.inFlightCommands with
  | nil => rfl
  | cons e t ih =>
    by_cases hk : keyMatches c.commandId s.nextSequenceId e
    · have hcm : (e.commandId == x) = false := by
        have : e.commandId = c.commandId := by
          simp only [keyMatches, Bool.and_eq_true, beq_iff_eq] at hk
          exact hk.1
        simp [this, hx]
      simp [List.filter_cons, hk, hcm, ih]
    · simp [List.filter_cons, hk, ih]

theorem hasInFlightFor_send_self (s : QueueState) (c : EnqueuedCommand) :
    hasInFlightFor (sendCommand s c).1 c.commandId = true := by
  simp [hasInFlightFor, sendCommand]

theorem removeInFlight_status (s : QueueState) (cmd : CommandId) (seq : Nat) :
    (removeInFlight s cmd seq).apsDataRequestStatus = s.apsDataRequestStatus := rfl

theorem removeInFlight_deviceState (s : QueueState) (cmd : CommandId) (seq : Nat) :
    (removeInFlight s cmd seq).deviceState = s.deviceState := rfl

theorem removeInFlight_num_le (s : QueueState) (cmd : CommandId) (seq : Nat) :
    numInFlightCommands (removeInFlight s cmd seq) ≤ numInFlightCommands s :=
  List.length_filter_le _ _

theorem hasInFlightFor_remove_ne (s : QueueState) (cmd : CommandId) (seq : Nat)
    (x : CommandId) (hx : cmd ≠ x) :
    hasInFlightFor (removeInFlight s cmd seq) x = hasInFlightFor s x := by
  simp only [hasInFlightFor, removeInFlight]
  induction s.inFlightCommands with
  | nil => rfl
  | cons e t ih =>
    by_cases hk : keyMatches cmd seq e
    · have hcm : (e.commandId == x) = false := by
        have : e.commandId = cmd := by
          simp only [keyMatches, Bool.and_eq_true, beq_iff_eq] at hk
          exact hk.1
        simp [this, hx]
      simp [List.filter_cons, hk, hcm, ih]
    · simp [List.filter_cons, hk, ih]

/-- A successful lookup means the removal strictly shrinks the map. -/
theorem removeInFlight_num_lt (s : QueueState) (cmd : CommandId) (seq : Nat)
    (e : InFlightEntry) (h : lookupInFlight s cmd seq = some e) :
    numInFlightCommands (removeInFlight s cmd seq) < numInFlightCommands s := by
  have hmem : e ∈ s.inFlightCommands := List.mem_of_find?_eq_some h
  have hkey : keyMatches cmd seq e := List.find?_some h
  simp only [numInFlightCommands, removeInFlight]
  rw [List.length_filter_lt_length_iff_exists]
  exact ⟨e, hmem, by simp [hkey]⟩

theorem updateDeviceState_inFlight (s : QueueState) (ds : DeviceState) :
    (updateDeviceState s ds).inFlightCommands = s.inFlightCommands := rfl

theorem updateDeviceState_deviceState (s : QueueState) (ds : DeviceState) :
    (updateDeviceState s ds).deviceState = some ds := rfl

theorem enqueueCommand_inFlight (s : QueueState) (c : EnqueuedCommand) :
    (enqueueCommand s c).inFlightCommands = s.inFlightCommands := by
  unfold enqueueCommand
  split <;> rfl

theorem enqueueCommand_status (s : QueueState) (c : EnqueuedCommand) :
    (enqueueCommand s c).apsDataRequestStatus = s.apsDataRequestStatus := by
  unfold enqueueCommand
  split <;> rfl

theorem enqueueCommand_deviceState (s : QueueState) (c : EnqueuedCommand) :
    (enqueueCommand s c).deviceState = s.deviceState := by
  unfold enqueueCommand
  split <;> rfl

/-- Witness for C7 at the Version request: command id Version, sequence 0,
body `[0, 0]`. -/
theorem c7_encode_decode_roundtrip_witness :
    ∃ packet,
      encode ⟨.Version, 0, some [0, 0]⟩ = some (packet ++ DeconzCrc.generate packet) ∧
      parseIncoming packet = .ok ⟨.Version, 0, .Success, packet.drop 5⟩ ∧
      (some [0, 0] = none → packet.drop 5 = []) ∧
      (∀ b, some [0, 0] = some b →
        packet.drop 5 = [b.length % 256, b.length / 256] ++ b ∧
        packet.drop 7 = b) ∧
      crcValue packet = ((-(packet.sum : Int)) % 65536).toNat :=
  c7_encode_decode_roundtrip .Version 0 (some [0, 0]) (by decide)
    (fun b hb => by cases hb; decide)

/-! ## Internal sender and pacing lemmas -/

theorem sendDeviceStateRequest_status (s : QueueState) :
    (sendDeviceStateRequest s).1.apsDataRequestStatus = s.apsDataRequestStatus := by
  unfold sendDeviceStateRequest
  split <;> rfl

theorem sendDeviceStateRequest_deviceState (s : QueueState) :
    (sendDeviceStateRequest s).1.deviceState = s.deviceState := by
  unfold sendDeviceStateRequest
  split <;> rfl

theorem sendApsDataIndicationReadRequest_status (s : QueueState) :
    (sendApsDataIndicationReadRequest s).1.apsDataRequestStatus =
      s.apsDataRequestStatus := by
  unfold sendApsDataIndicationReadRequest
  split <;> rfl

theorem sendApsDataIndicationReadRequest_deviceState (s : QueueState) :
    (sendApsDataIndicationReadRequest s).1.deviceState = s.deviceState := by
  unfold sendApsDataIndicationReadRequest
  split <;> rfl

theorem sendApsDataIndicationReadRequest_general (s : QueueState) :
    (sendApsDataIndicationReadRequest s).1.enqueuedCommands = s.enqueuedCommands := by
  unfold sendApsDataIndicationReadRequest
  split <;> rfl

theorem sendApsDataIndicationReadRequest_apsQueue (s : QueueState) :
    (sendApsDataIndicationReadRequest s).1.enqueuedApsDataRequestCommands =
      s.enqueuedApsDataRequestCommands := by
  unfold sendApsDataIndicationReadRequest
  split <;> rfl

theorem sendApsDataConfirmReadRequest_status (s : QueueState) :
    (sendApsDataConfirmReadRequest s).1.apsDataRequestStatus =
      s.apsDataRequestStatus := by
  unfold sendApsDataConfirmReadRequest
  split <;> rfl

theorem sendApsDataConfirmReadRequest_deviceState (s : QueueState) :
    (sendApsDataConfirmReadRequest s).1.deviceState = s.deviceState := by
  unfold sendApsDataConfirmReadRequest
  split <;> rfl

theorem sendApsDataConfirmReadRequest_general (s : QueueState) :
    (sendApsDataConfirmReadRequest s).1.enqueuedCommands = s.enqueuedCommands := by
  unfold sendApsDataConfirmReadRequest
  split <;> rfl

theorem sendApsDataConfirmReadRequest_apsQueue (s : QueueState) :
    (sendApsDataConfirmReadRequest s).1.enqueuedApsDataRequestCommands =
      s.enqueuedApsDataRequestCommands := by
  unfold sendApsDataConfirmReadRequest
  split <;> rfl

theorem hasSlotsAvailable_iff (st : ApsDataRequestStatus) :
    st.hasSlotsAvailable = true ↔ st = .SlotsAvailable := by
  cases st <;> simp [ApsDataRequestStatus.hasSlotsAvailable]

theorem trySendApsDataRequest_deviceState (s : QueueState) :
    (trySendApsDataRequest s).1.deviceState = s.deviceState := by
  unfold trySendApsDataRequest
  split
  · rfl
  · split
    · rfl
    · rfl

theorem trySendApsDataRequest_general (s : QueueState) :
    (trySendApsDataRequest s).1.enqueuedCommands = s.enqueuedCommands := by
  unfold trySendApsDataRequest
  split
  · rfl
  · split
    · rfl
    · rfl

theorem trySendApsDataRequest_status_of_not_submitted (s : QueueState)
    (h : (trySendApsDataRequest s).2.2 = false) :
    (trySendApsDataRequest s).1.apsDataRequestStatus = s.apsDataRequestStatus := by
  by_cases hgate : (! s.apsDataRequestStatus.hasSlotsAvailable ||
      inFlightCommandsFull s) = true
  · rw [trySendApsDataRequest, if_pos hgate]
  · rw [trySendApsDataRequest, if_neg hgate] at h ⊢
    cases hq : s.enqueuedApsDataRequestCommands with
    | nil => rfl
    | cons c rest =>
      rw [hq] at h
      simp at h

theorem trySendApsDataRequest_submitted (s : QueueState)
    (h : (trySendApsDataRequest s).2.2 = true) :
    s.apsDataRequestStatus = .SlotsAvailable ∧
    inFlightCommandsFull s = false ∧
    (trySendApsDataRequest s).1.apsDataRequestStatus = .PendingNextDeviceUpdate := by
  by_cases hgate : (! s.apsDataRequestStatus.hasSlotsAvailable ||
      inFlightCommandsFull s) = true
  · rw [trySendApsDataRequest, if_pos hgate] at h
    simp at h
  · have hparts : s.apsDataRequestStatus.hasSlotsAvailable = true ∧
        inFlightCommandsFull s = false := by
      constructor
      · revert hgate
        cases s.apsDataRequestStatus.hasSlotsAvailable <;> simp
      · revert hgate
        cases inFlightCommandsFull s <;> simp
    rw [trySendApsDataRequest, if_neg hgate] at h ⊢
    cases hq : s.enqueuedApsDataRequestCommands with
    | nil =>
      rw [hq] at h
      simp at h
    | cons c rest =>
      exact ⟨(hasSlotsAvailable_iff _).1 hparts.1, hparts.2, rfl⟩

theorem drainLoop_status (fuel : Nat) (s : QueueState) :
    (drainLoop fuel s).1.apsDataRequestStatus = s.apsDataRequestStatus := by
  induction fuel generalizing s with
  | zero => rfl
  | succ fuel ih =>
    unfold drainLoop
    split
    · rfl
    · split
      · rfl
      · exact ih _

theorem drainLoop_deviceState (fuel : Nat) (s : QueueState) :
    (drainLoop fuel s).1.deviceState = s.deviceState := by
  induction fuel generalizing s with
  | zero => rfl
  | succ fuel ih =>
    unfold drainLoop
    split
    · rfl
    · split
      · rfl
      · exact ih _

theorem drainLoop_apsQueue (fuel : Nat) (s : QueueState) :
    (drainLoop fuel s).1.enqueuedApsDataRequestCommands =
      s.enqueuedApsDataRequestCommands := by
  induction fuel generalizing s with
  | zero => rfl
  | succ fuel ih =>
    unfold drainLoop
    split
    · rfl
    · split
      · rfl
      · exact ih _

theorem condIndication_status (b : Bool) (t : QueueState) :
    (if b = true then sendApsDataIndicationReadRequest t else (t, [])).1.apsDataRequestStatus =
      t.apsDataRequestStatus := by
  cases b
  · simp
  · simpa using sendApsDataIndicationReadRequest_status t

theorem condConfirm_status (b : Bool) (t : QueueState) :
    (if b = true then sendApsDataConfirmReadRequest t else (t, [])).1.apsDataRequestStatus =
      t.apsDataRequestStatus := by
  cases b
  · simp
  · simpa using sendApsDataConfirmReadRequest_status t

theorem tryIoConnected_submitted (ds : DeviceState) (s : QueueState)
    (h : (tryIoConnected ds s).2.2 = true) :
    s.apsDataRequestStatus = .SlotsAvailable ∧
    (tryIoConnected ds s).1.apsDataRequestStatus = .PendingNextDeviceUpdate := by
  unfold tryIoConnected at h ⊢
  by_cases hc : ds.networkState.isConnected = true
  · rw [if_pos hc] at h ⊢
    obtain ⟨h1, _, h3⟩ := trySendApsDataRequest_submitted _ h
    refine ⟨?_, h3⟩
    rw [condConfirm_status, condIndication_status] at h1
    exact h1
  · rw [if_neg hc] at h
    simp at h

theorem tryIoConnected_not_submitted (ds : DeviceState) (s : QueueState)
    (h : (tryIoConnected ds s).2.2 = false) :
    (tryIoConnected ds s).1.apsDataRequestStatus = s.apsDataRequestStatus := by
  unfold tryIoConnected at h ⊢
  by_cases hc : ds.networkState.isConnected = true
  · rw [if_pos hc] at h ⊢
    rw [trySendApsDataRequest_status_of_not_submitted _ h,
      condConfirm_status, condIndication_status]
  · rw [if_neg hc]

theorem tryIo_submitted (s : QueueState) (h : (tryIo s).apsSubmitted = true) :
    s.apsDataRequestStatus = .SlotsAvailable ∧
    (tryIo s).state.apsDataRequestStatus = .PendingNextDeviceUpdate := by
  cases hds : s.deviceState with
  | none =>
    rw [tryIo] at h
    rw [hds] at h
    simp at h
  | some ds =>
    rw [tryIo] at h ⊢
    rw [hds] at h ⊢
    obtain ⟨h1, h3⟩ := tryIoConnected_submitted ds s h
    exact ⟨h1, by rw [drainLoop_status]; exact h3⟩

theorem tryIo_not_submitted_status (s : QueueState)
    (h : (tryIo s).apsSubmitted = false) :
    (tryIo s).state.apsDataRequestStatus = s.apsDataRequestStatus := by
  cases hds : s.deviceState with
  | none =>
    rw [tryIo]
    rw [hds]
    exact sendDeviceStateRequest_status s
  | some ds =>
    rw [tryIo] at h ⊢
    rw [hds] at h ⊢
    rw [drainLoop_status]
    exact tryIoConnected_not_submitted ds s h

theorem handleInternalResponse_state (s : QueueState) (f : IncomingFrame)
    (r : QueueState × List DispatchEffect × Option DeviceState)
    (h : handleInternalResponse s f = some r) : r.1 = s := by
  unfold handleInternalResponse at h
  split at h
  · rw [Option.map_eq_some'] at h
    obtain ⟨p, _, heq⟩ := h
    rw [← heq]
  · rw [Option.map_eq_some'] at h
    obtain ⟨p, _, heq⟩ := h
    rw [← heq]
  · rw [Option.map_eq_some'] at h
    obtain ⟨p, _, heq⟩ := h
    rw [← heq]
  · cases h
    rfl

/-- The dispatch body either leaves the state untouched or removes the
looked-up in-flight entry. -/
theorem dispatchCore_state (s : QueueState) (f : IncomingFrame)
    (r : QueueState × List DispatchEffect × Option DeviceState)
    (h : dispatchCore s f = some r) :
    r.1 = s ∨ (∃ e, lookupInFlight s f.commandId f.sequenceId = some e ∧
      r.1 = removeInFlight s f.commandId f.sequenceId) := by
  unfold dispatchCore at h
  split at h
  · cases hru : readU8 f.payload with
    | none =>
      rw [hru] at h
      simp [pbind] at h
    | some p =>
      rw [hru] at h
      simp only [pbind] at h
      cases h
      exact Or.inl rfl
  · rw [Option.map_eq_some'] at h
    obtain ⟨p, _, heq⟩ := h
    rw [← heq]
    exact Or.inl rfl
  · rw [Option.map_eq_some'] at h
    obtain ⟨p, _, heq⟩ := h
    rw [← heq]
    exact Or.inl rfl
  · split at h
    · next e hlook =>
      split at h
      · cases h
        exact Or.inr ⟨e, hlook, rfl⟩
      · exact Or.inr ⟨e, hlook, handleInternalResponse_state _ _ _ h⟩
    · cases h
      exact Or.inl rfl

theorem dispatchCore_status (s : QueueState) (f : IncomingFrame)
    (r : QueueState × List DispatchEffect × Option DeviceState)
    (h : dispatchCore s f = some r) :
    r.1.apsDataRequestStatus = s.apsDataRequestStatus := by
  rcases dispatchCore_state s f r h with heq | ⟨e, _, heq⟩
  · rw [heq]
  · rw [heq]
    exact removeInFlight_status ..

theorem handleDeconzFrame_tau_status (s : QueueState) (f : IncomingFrame)
    (s' : QueueState) (effects : List DispatchEffect)
    (h : handleDeconzFrame s f = some (s', effects, none)) :
    s'.apsDataRequestStatus = s.apsDataRequestStatus := by
  unfold handleDeconzFrame at h
  rw [Option.map_eq_some'] at h
  obtain ⟨r, hr, heq⟩ := h
  rw [Prod.mk.injEq, Prod.mk.injEq] at heq
  obtain ⟨heq1, _, heq3⟩ := heq
  rw [heq3] at heq1
  rw [← heq1]
  exact dispatchCore_status s f r hr

/-- A step that neither observes a device state nor submits an APS request
leaves the APS submission signal unchanged. -/
theorem step_preserves_status {a : QueueState} {l : Label} {b : QueueState}
    (hstep : Step a l b) (hl1 : l.isObserve = false) (hl2 : l ≠ .paceApsSend) :
    b.apsDataRequestStatus = a.apsDataRequestStatus := by
  cases hstep with
  | enqueue commandId payload responseParser hc => exact enqueueCommand_status ..
  | pace h => exact tryIo_not_submitted_status _ h
  | paceApsSend h => exact absurd rfl hl2
  | dispatchTau f _ effects h => exact handleDeconzFrame_tau_status _ f _ effects h
  | dispatchObserve f _ effects ds h => simp [Label.isObserve] at hl1

theorem step_apsSend {a b : QueueState} (h : Step a .paceApsSend b) :
    a.apsDataRequestStatus = .SlotsAvailable ∧
    b.apsDataRequestStatus = .PendingNextDeviceUpdate := by
  cases h with
  | paceApsSend hsub => exact tryIo_submitted _ hsub

/-- Once the signal is away from SlotsAvailable, a stretch of steps without
a device-state observation keeps it away and admits no APS submission. -/
theorem no_slots_window {b : QueueState} {ls : List Label} {c : QueueState}
    (hpath : Path b ls c) (hb : b.apsDataRequestStatus ≠ .SlotsAvailable)
    (hnoobs : ∀ l ∈ ls, l.isObserve = false) :
    c.apsDataRequestStatus ≠ .SlotsAvailable ∧ ∀ l ∈ ls, l ≠ .paceApsSend := by
  induction hpath with
  | nil s => exact ⟨hb, by simp⟩
  | @cons a b' c' l ls' hstep hpath ih =>
    have hl : l.isObserve = false := hnoobs l (List.mem_cons_self ..)
    by_cases hlp : l = Label.paceApsSend
    · subst hlp
      exact absurd (step_apsSend hstep).1 hb
    · have hst := step_preserves_status hstep hl hlp
      have hb' : b'.apsDataRequestStatus ≠ .SlotsAvailable := by
        rw [hst]
        exact hb
      obtain ⟨h1, h2⟩ := ih hb' (fun x hx => hnoobs x (List.mem_cons_of_mem _ hx))
      refine ⟨h1, ?_⟩
      intro x hx
      rcases List.mem_cons.1 hx with rfl | hx'
      · exact hlp
      · exact h2 x hx'

/-! ## Claim C6 -/

/-- C6 (confirmed): every device-state observation sets the signal to
SlotsAvailable exactly when the free-slots bit is set and to SlotsFull
otherwise; a pacing step that sends an APS submission requires the signal
to be SlotsAvailable beforehand and leaves it at PendingNextDeviceUpdate;
and along any execution fragment after such a send that contains no
device-state observation, the signal never returns to SlotsAvailable and no
further APS submission is sent. -/
theorem c6_aps_request_status_discipline :
    (∀ s ds, (updateDeviceState s ds).apsDataRequestStatus =
      (if ds.apsdeDataRequestFreeSlots then .SlotsAvailable else .SlotsFull)) ∧
    (∀ a b, Step a .paceApsSend b →
      a.apsDataRequestStatus = .SlotsAvailable ∧
      b.apsDataRequestStatus = .PendingNextDeviceUpdate) ∧
    (∀ a b ls c, Step a .paceApsSend b → Path b ls c →
      (∀ l ∈ ls, l.isObserve = false) →
      c.apsDataRequestStatus ≠ .SlotsAvailable ∧ ∀ l ∈ ls, l ≠ .paceApsSend) := by
  refine ⟨fun s ds => rfl, fun a b h => step_apsSend h, ?_⟩
  intro a b ls c hstep hpath hnoobs
  have hb : b.apsDataRequestStatus ≠ .SlotsAvailable := by
    rw [(step_apsSend hstep).2]
    decide
  exact no_slots_window hpath hb hnoobs

/-- Witness for C6: the observation of flag byte 0x22 lifts the signal, and
a pacing step from `c6SlotsState` (slots available, one queued submission)
submits and pins the signal at PendingNextDeviceUpdate. -/
theorem c6_aps_request_status_discipline_witness :
    (updateDeviceState initialState (DeviceState.fromByte 0x22)).apsDataRequestStatus =
      (if (DeviceState.fromByte 0x22).apsdeDataRequestFreeSlots
        then ApsDataRequestStatus.SlotsAvailable else ApsDataRequestStatus.SlotsFull) ∧
    (c6SlotsState.apsDataRequestStatus = .SlotsAvailable ∧
      (tryIo c6SlotsState).state.apsDataRequestStatus = .PendingNextDeviceUpdate) ∧
    ((tryIo c6SlotsState).state.apsDataRequestStatus ≠ .SlotsAvailable ∧
      ∀ l ∈ ([] : List Label), l ≠ Label.paceApsSend) :=
  ⟨c6_aps_request_status_discipline.1 initialState (DeviceState.fromByte 0x22),
   c6_aps_request_status_discipline.2.1 c6SlotsState (tryIo c6SlotsState).state
     (Step.paceApsSend c6SlotsState rfl),
   c6_aps_request_status_discipline.2.2 c6SlotsState (tryIo c6SlotsState).state []
     (tryIo c6SlotsState).state (Step.paceApsSend c6SlotsState rfl)
     (Path.nil _) (by simp)⟩

/-! ## Claim C2 -/

theorem capBound_ge (s : QueueState) : 16 ≤ CapBound s := by
  unfold CapBound
  split <;> split <;> omega

theorem le_capBound_of_le16 (t : QueueState) (h : numInFlightCommands t ≤ 16) :
    numInFlightCommands t ≤ CapBound t :=
  le_trans h (capBound_ge t)

theorem inFlightCommandsFull_false (s : QueueState)
    (h : inFlightCommandsFull s = false) : numInFlightCommands s < 16 := by
  unfold inFlightCommandsFull MAX_IN_FLIGHT_COMMANDS at h
  simp only [decide_eq_false_iff_not] at h
  omega

theorem sendCommand_underCap (s : QueueState) (c : EnqueuedCommand)
    (h : inFlightCommandsFull s = false) :
    numInFlightCommands (sendCommand s c).1 ≤ 16 := by
  have h1 := sendCommand_num_le s c
  have h2 := inFlightCommandsFull_false s h
  omega

theorem drainLoop_capinv1 (fuel : Nat) (s : QueueState)
    (h : numInFlightCommands s ≤ CapBound s) :
    numInFlightCommands (drainLoop fuel s).1 ≤ CapBound (drainLoop fuel s).1 := by
  induction fuel generalizing s with
  | zero => exact h
  | succ fuel ih =>
    unfold drainLoop
    split
    · exact h
    · next hfull =>
      have hfull' : inFlightCommandsFull s = false := by
        revert hfull
        cases inFlightCommandsFull s <;> simp
      split
      · exact h
      · exact ih _ (le_capBound_of_le16 _ (sendCommand_underCap _ _ hfull'))

theorem trySend_capinv1 (s : QueueState)
    (h : numInFlightCommands s ≤ CapBound s) :
    numInFlightCommands (trySendApsDataRequest s).1 ≤
      CapBound (trySendApsDataRequest s).1 := by
  unfold trySendApsDataRequest
  by_cases hgate : (! s.apsDataRequestStatus.hasSlotsAvailable ||
      inFlightCommandsFull s) = true
  · rw [if_pos hgate]
    exact h
  · rw [if_neg hgate]
    have hfull : inFlightCommandsFull s = false := by
      revert hgate
      cases inFlightCommandsFull s <;> simp
    cases hq : s.enqueuedApsDataRequestCommands with
    | nil => exact h
    | cons c rest =>
      exact le_capBound_of_le16 _ (sendCommand_underCap _ _ hfull)

theorem sendApsDataIndicationReadRequest_capinv1 (s : QueueState)
    (h : numInFlightCommands s ≤ CapBound s) :
    numInFlightCommands (sendApsDataIndicationReadRequest s).1 ≤
      CapBound (sendApsDataIndicationReadRequest s).1 := by
  unfold sendApsDataIndicationReadRequest
  by_cases hg : hasInFlightFor s .ApsDataIndication = true
  · rw [if_pos hg]
    exact h
  · rw [if_neg hg]
    have hg' : hasInFlightFor s .ApsDataIndication = false := by
      revert hg
      cases hasInFlightFor s .ApsDataIndication <;> simp
    have hnum := sendCommand_num_le s readReceivedDataCommand
    have hself : hasInFlightFor (sendCommand s readReceivedDataCommand).1
        CommandId.ApsDataIndication = true :=
      hasInFlightFor_send_self s readReceivedDataCommand
    have hother := hasInFlightFor_send_ne s readReceivedDataCommand
      .ApsDataConfirm (by decide)
    unfold CapBound at h ⊢
    rw [hg'] at h
    rw [hself, hother]
    cases hconf : hasInFlightFor s .ApsDataConfirm <;>
      (rw [hconf] at h; simp at h ⊢; omega)

theorem sendApsDataConfirmReadRequest_capinv1 (s : QueueState)
    (h : numInFlightCommands s ≤ CapBound s) :
    numInFlightCommands (sendApsDataConfirmReadRequest s).1 ≤
      CapBound (sendApsDataConfirmReadRequest s).1 := by
  unfold sendApsDataConfirmReadRequest
  by_cases hg : hasInFlightFor s .ApsDataConfirm = true
  · rw [if_pos hg]
    exact h
  · rw [if_neg hg]
    have hg' : hasInFlightFor s .ApsDataConfirm = false := by
      revert hg
      cases hasInFlightFor s .ApsDataConfirm <;> simp
    have hnum := sendCommand_num_le s readConfirmDataCommand
    have hself : hasInFlightFor (sendCommand s readConfirmDataCommand).1
        CommandId.ApsDataConfirm = true :=
      hasInFlightFor_send_self s readConfirmDataCommand
    have hother := hasInFlightFor_send_ne s readConfirmDataCommand
      .ApsDataIndication (by decide)
    unfold CapBound at h ⊢
    rw [hg'] at h
    rw [hself, hother]
    cases hind : hasInFlightFor s .ApsDataIndication <;>
      (rw [hind] at h; simp at h ⊢; omega)

theorem condIndication_capinv1 (b : Bool) (s : QueueState)
    (h : numInFlightCommands s ≤ CapBound s) :
    numInFlightCommands (if b = true then sendApsDataIndicationReadRequest s
      else (s, [])).1 ≤
    CapBound (if b = true then sendApsDataIndicationReadRequest s else (s, [])).1 := by
  cases b
  · simpa using h
  · simpa using sendApsDataIndicationReadRequest_capinv1 s h

theorem condConfirm_capinv1 (b : Bool) (s : QueueState)
    (h : numInFlightCommands s ≤ CapBound s) :
    numInFlightCommands (if b = true then sendApsDataConfirmReadRequest s
      else (s, [])).1 ≤
    CapBound (if b = true then sendApsDataConfirmReadRequest s else (s, [])).1 := by
  cases b
  · simpa using h
  · simpa using sendApsDataConfirmReadRequest_capinv1 s h

theorem tryIoConnected_capinv1 (ds : DeviceState) (s : QueueState)
    (h : numInFlightCommands s ≤ CapBound s) :
    numInFlightCommands (tryIoConnected ds s).1 ≤
      CapBound (tryIoConnected ds s).1 := by
  unfold tryIoConnected
  by_cases hc : ds.networkState.isConnected = true
  · rw [if_pos hc]
    exact trySend_capinv1 _ (condConfirm_capinv1 _ _ (condIndication_capinv1 _ _ h))
  · rw [if_neg hc]
    exact h

theorem condIndication_deviceState (b : Bool) (t : QueueState) :
    (if b = true then sendApsDataIndicationReadRequest t else (t, [])).1.deviceState =
      t.deviceState := by
  cases b
  · simp
  · simpa using sendApsDataIndicationReadRequest_deviceState t

theorem condConfirm_deviceState (b : Bool) (t : QueueState) :
    (if b = true then sendApsDataConfirmReadRequest t else (t, [])).1.deviceState =
      t.deviceState := by
  cases b
  · simp
  · simpa using sendApsDataConfirmReadRequest_deviceState t

theorem tryIoConnected_deviceState (ds : DeviceState) (s : QueueState) :
    (tryIoConnected ds s).1.deviceState = s.deviceState := by
  unfold tryIoConnected
  by_cases hc : ds.networkState.isConnected = true
  · rw [if_pos hc]
    rw [trySendApsDataRequest_deviceState, condConfirm_deviceState,
      condIndication_deviceState]
  · rw [if_neg hc]

theorem tryIo_deviceState (s : QueueState) :
    (tryIo s).state.deviceState = s.deviceState := by
  unfold tryIo
  split
  · exact sendDeviceStateRequest_deviceState s
  · show (drainLoop _ (tryIoConnected _ s).1).1.deviceState = s.deviceState
    rw [drainLoop_deviceState, tryIoConnected_deviceState]

/-- With no device state observed and no in-flight device-state read, the
second conjunct of `CapInv` forces the in-flight map to be empty. -/
theorem inFlight_nil_of_none (s : QueueState)
    (hall : ∀ e ∈ s.inFlightCommands, e.commandId = .DeviceState)
    (hg : ¬ hasInFlightFor s .DeviceState = true) :
    s.inFlightCommands = [] := by
  cases hl : s.inFlightCommands with
  | nil => rfl
  | cons e t =>
    exfalso
    apply hg
    unfold hasInFlightFor
    rw [hl]
    have he : e.commandId = .DeviceState := hall e (by rw [hl]; exact List.mem_cons_self ..)
    simp [he]

theorem sendDeviceStateRequest_capInv (s : QueueState) (h : CapInv s)
    (hds : s.deviceState = none) : CapInv (sendDeviceStateRequest s).1 := by
  unfold sendDeviceStateRequest
  by_cases hg : hasInFlightFor s .DeviceState = true
  · rw [if_pos hg]
    exact h
  · rw [if_neg hg]
    have hnil : s.inFlightCommands = [] := inFlight_nil_of_none s (h.2 hds).1 hg
    constructor
    · apply le_capBound_of_le16
      simp [sendCommand, numInFlightCommands, hnil]
    · intro _
      constructor
      · intro e he
        simp [sendCommand, hnil] at he
        rw [he]
        rfl
      · simp [sendCommand, numInFlightCommands, hnil]

theorem hasInFlightFor_of_lookup (s : QueueState) (cmd : CommandId) (seq : Nat)
    (e : InFlightEntry) (h : lookupInFlight s cmd seq = some e) :
    hasInFlightFor s cmd = true := by
  have hmem : e ∈ s.inFlightCommands := List.mem_of_find?_eq_some h
  have hkey : keyMatches cmd seq e = true := List.find?_some h
  simp only [keyMatches, Bool.and_eq_true, beq_iff_eq] at hkey
  unfold hasInFlightFor
  rw [List.any_eq_true]
  exact ⟨e, hmem, by simp [hkey.1]⟩

theorem removeInFlight_capinv1 (s : QueueState) (cmd : CommandId) (seq : Nat)
    (e : InFlightEntry) (hlook : lookupInFlight s cmd seq = some e)
    (h : numInFlightCommands s ≤ CapBound s) :
    numInFlightCommands (removeInFlight s cmd seq) ≤
      CapBound (removeInFlight s cmd seq) := by
  have hlt := removeInFlight_num_lt s cmd seq e hlook
  have hle := removeInFlight_num_le s cmd seq
  by_cases h17 : cmd = .ApsDataIndication
  · subst h17
    have hpre : hasInFlightFor s .ApsDataIndication = true :=
      hasInFlightFor_of_lookup s _ seq e hlook
    have hconf : hasInFlightFor (removeInFlight s .ApsDataIndication seq) .ApsDataConfirm =
        hasInFlightFor s .ApsDataConfirm :=
      hasInFlightFor_remove_ne s _ seq .ApsDataConfirm (by decide)
    unfold CapBound at h ⊢
    rw [hpre] at h
    rw [hconf]
    cases hc : hasInFlightFor s .ApsDataConfirm <;>
      (rw [hc] at h
       cases hi : hasInFlightFor (removeInFlight s .ApsDataIndication seq) .ApsDataIndication <;>
         (simp at h ⊢; omega))
  · by_cases h04 : cmd = .ApsDataConfirm
    · subst h04
      have hpre : hasInFlightFor s .ApsDataConfirm = true :=
        hasInFlightFor_of_lookup s _ seq e hlook
      have hind : hasInFlightFor (removeInFlight s .ApsDataConfirm seq) .ApsDataIndication =
          hasInFlightFor s .ApsDataIndication :=
        hasInFlightFor_remove_ne s _ seq .ApsDataIndication (by decide)
      unfold CapBound at h ⊢
      rw [hpre] at h
      rw [hind]
      cases hc : hasInFlightFor s .ApsDataIndication <;>
        (rw [hc] at h
         cases hi : hasInFlightFor (removeInFlight s .ApsDataConfirm seq) .ApsDataConfirm <;>
           (simp at h ⊢; omega))
    · have hind : hasInFlightFor (removeInFlight s cmd seq) .ApsDataIndication =
          hasInFlightFor s .ApsDataIndication :=
        hasInFlightFor_remove_ne s cmd seq .ApsDataIndication h17
      have hconf : hasInFlightFor (removeInFlight s cmd seq) .ApsDataConfirm =
          hasInFlightFor s .ApsDataConfirm :=
        hasInFlightFor_remove_ne s cmd seq .ApsDataConfirm h04
      unfold CapBound at h ⊢
      rw [hind, hconf]
      omega

theorem tryIo_capInv (s : QueueState) (h : CapInv s) : CapInv (tryIo s).state := by
  unfold tryIo
  split
  · next hds => exact sendDeviceStateRequest_capInv s h hds
  · next ds hds =>
    constructor
    · show numInFlightCommands (drainLoop _ (tryIoConnected ds s).1).1 ≤ CapBound _
      exact drainLoop_capinv1 _ _ (tryIoConnected_capinv1 ds s h.1)
    · intro hnone
      exfalso
      rw [show ((drainLoop (tryIoConnected ds s).1.enqueuedCommands.length
          (tryIoConnected ds s).1).1).deviceState = s.deviceState from by
        rw [drainLoop_deviceState, tryIoConnected_deviceState]] at hnone
      rw [hds] at hnone
      cases hnone

theorem enqueueCommand_num (s : QueueState) (c : EnqueuedCommand) :
    numInFlightCommands (enqueueCommand s c) = numInFlightCommands s := by
  unfold numInFlightCommands
  rw [enqueueCommand_inFlight]

theorem enqueueCommand_capBound (s : QueueState) (c : EnqueuedCommand) :
    CapBound (enqueueCommand s c) = CapBound s := by
  unfold CapBound hasInFlightFor
  rw [enqueueCommand_inFlight]

theorem enqueueCommand_capInv (s : QueueState) (c : EnqueuedCommand)
    (h : CapInv s) : CapInv (enqueueCommand s c) := by
  constructor
  · rw [enqueueCommand_num, enqueueCommand_capBound]
    exact h.1
  · intro hn
    rw [enqueueCommand_deviceState] at hn
    obtain ⟨hall, hle⟩ := h.2 hn
    constructor
    · intro e he
      rw [enqueueCommand_inFlight] at he
      exact hall e he
    · rw [enqueueCommand_num]
      exact hle

theorem handleDeconzFrame_capInv (s : QueueState) (f : IncomingFrame)
    (s' : QueueState) (effects : List DispatchEffect) (obs : Option DeviceState)
    (h : handleDeconzFrame s f = some (s', effects, obs)) (hinv : CapInv s) :
    CapInv s' := by
  unfold handleDeconzFrame at h
  rw [Option.map_eq_some'] at h
  obtain ⟨r, hr, heq⟩ := h
  rw [Prod.mk.injEq, Prod.mk.injEq] at heq
  obtain ⟨heq1, _, _⟩ := heq
  have hcore : CapInv r.1 := by
    rcases dispatchCore_state s f r hr with hrs | ⟨e, hlook, hrs⟩
    · rw [hrs]
      exact hinv
    · rw [hrs]
      constructor
      · exact removeInFlight_capinv1 s _ _ e hlook hinv.1
      · intro hnone
        rw [removeInFlight_deviceState] at hnone
        obtain ⟨hall, hle⟩ := hinv.2 hnone
        constructor
        · intro e' he'
          exact hall e' (List.mem_of_mem_filter he')
        · exact le_trans (removeInFlight_num_le ..) hle
  rw [← heq1]
  cases hobs : r.2.2 with
  | none => exact hcore
  | some ds =>
    constructor
    · exact hcore.1
    · intro hn
      exact absurd hn (by simp [updateDeviceState])

theorem step_capInv {a : QueueState} {l : Label} {b : QueueState}
    (hstep : Step a l b) (h : CapInv a) : CapInv b := by
  cases hstep with
  | enqueue commandId payload responseParser hc => exact enqueueCommand_capInv _ _ h
  | pace hsub => exact tryIo_capInv _ h
  | paceApsSend hsub => exact tryIo_capInv _ h
  | dispatchTau f _ effects hd =>
    exact handleDeconzFrame_capInv _ f _ effects none hd h
  | dispatchObserve f _ effects ds hd =>
    exact handleDeconzFrame_capInv _ f _ effects (some ds) hd h

theorem reachable_capInv (s : QueueState) (h : Reachable s) : CapInv s := by
  induction h with
  | init =>
    constructor
    · exact le_capBound_of_le16 _ (by decide)
    · intro _
      refine ⟨?_, by decide⟩
      intro e he
      cases he
  | step hr hst ih =>
    obtain ⟨l, hstep⟩ := hst
    exact step_capInv hstep ih

theorem reachable_enqueueVersionN (n : Nat) (s : QueueState) (hs : Reachable s) :
    Reachable (enqueueVersionN n s) := by
  induction n generalizing s with
  | zero => exact hs
  | succ n ih =>
    exact ih _ (Reachable.step hs ⟨.enqueue,
      Step.enqueue s .Version (some [0, 0]) trivialParser (by decide)⟩)

/-- C2 counterexample: the claimed bound of 16 fails on a reachable state.
Sixteen Version commands are enqueued and drained (filling the window to
16); an unsolicited device-state frame then reports indication-pending, and
the next pacing step sends the internal indication read without any cap
check, reaching 17 in-flight entries. -/
theorem c2_counterexample :
    Reachable c2StateOver ∧ 16 < numInFlightCommands c2StateOver := by
  constructor
  · have h1 : Reachable c2StateQueued :=
      reachable_enqueueVersionN 16 initialState Reachable.init
    have h2 : Reachable c2StateConnected :=
      Reachable.step h1 ⟨Label.dispatchObserve (DeviceState.fromByte 0x02),
        Step.dispatchObserve c2StateQueued (deviceStateChangedFrame 0x02)
          c2StateConnected [] (DeviceState.fromByte 0x02) rfl⟩
    have h3 : Reachable c2StateFull :=
      Reachable.step h2 ⟨Label.pace, Step.pace c2StateConnected rfl⟩
    have h4 : Reachable c2StateIndication :=
      Reachable.step h3 ⟨Label.dispatchObserve (DeviceState.fromByte 0x0A),
        Step.dispatchObserve c2StateFull (deviceStateChangedFrame 0x0A)
          c2StateIndication [] (DeviceState.fromByte 0x0A) rfl⟩
    exact Reachable.step h4 ⟨Label.pace, Step.pace c2StateIndication rfl⟩
  · decide

/-- C2 amended: in every reachable scheduler state the in-flight map holds
at most 18 entries: the 16-cap is enforced by the general-queue drain and
the APS submission path, while the internal APS indication and confirm
reads are each sent without a cap check (but only when no same-id entry is
in flight), so each can exceed the cap by one. -/
theorem c2_in_flight_bound (s : QueueState) (hs : Reachable s) :
    numInFlightCommands s ≤ 18 := by
  have h := (reachable_capInv s hs).1
  unfold CapBound at h
  split at h <;> split at h <;> omega

/-- Witness for C2 at the initial state. -/
theorem c2_in_flight_bound_witness : numInFlightCommands initialState ≤ 18 :=
  c2_in_flight_bound initialState Reachable.init

/-! ## Well-formedness of reachable states -/

theorem sendCommand_inFlight_pred (P : CommandId → Prop) (s : QueueState)
    (c : EnqueuedCommand) (hall : ∀ e ∈ s.inFlightCommands, P e.commandId)
    (hc : P c.commandId) :
    ∀ e ∈ (sendCommand s c).1.inFlightCommands, P e.commandId := by
  intro e he
  simp only [sendCommand] at he
  rcases List.mem_cons.1 he with rfl | he'
  · exact hc
  · exact hall e (List.mem_of_mem_filter he')

theorem sendDeviceStateRequest_wf (s : QueueState) (h : WellFormed s) :
    WellFormed (sendDeviceStateRequest s).1 := by
  unfold sendDeviceStateRequest
  split
  · exact h
  · exact ⟨sendCommand_inFlight_pred _ s _ h.1 (by decide), h.2.1, h.2.2⟩

theorem sendApsDataIndicationReadRequest_wf (s : QueueState) (h : WellFormed s) :
    WellFormed (sendApsDataIndicationReadRequest s).1 := by
  unfold sendApsDataIndicationReadRequest
  split
  · exact h
  · exact ⟨sendCommand_inFlight_pred _ s _ h.1 (by decide), h.2.1, h.2.2⟩

theorem sendApsDataConfirmReadRequest_wf (s : QueueState) (h : WellFormed s) :
    WellFormed (sendApsDataConfirmReadRequest s).1 := by
  unfold sendApsDataConfirmReadRequest
  split
  · exact h
  · exact ⟨sendCommand_inFlight_pred _ s _ h.1 (by decide), h.2.1, h.2.2⟩

theorem trySendApsDataRequest_wf (s : QueueState) (h : WellFormed s) :
    WellFormed (trySendApsDataRequest s).1 := by
  unfold trySendApsDataRequest
  split
  · exact h
  · split
    · exact h
    · next c rest hq =>
      refine ⟨?_, h.2.1, ?_⟩
      · apply sendCommand_inFlight_pred _ _ _ h.1
        have hc : c.commandId = .ApsDataRequest := h.2.2 c (by rw [hq]; exact List.mem_cons_self ..)
        rw [hc]
        decide
      · intro x hx
        exact h.2.2 x (by rw [hq]; exact List.mem_cons_of_mem _ hx)

theorem drainLoop_wf (fuel : Nat) (s : QueueState) (h : WellFormed s) :
    WellFormed (drainLoop fuel s).1 := by
  induction fuel generalizing s with
  | zero => exact h
  | succ fuel ih =>
    unfold drainLoop
    split
    · exact h
    · split
      · exact h
      · next c rest hq =>
        apply ih
        refine ⟨?_, ?_, h.2.2⟩
        · apply sendCommand_inFlight_pred _ _ _ h.1
          exact h.2.1 c (by rw [hq]; exact List.mem_cons_self ..)
        · intro x hx
          exact h.2.1 x (by rw [hq]; exact List.mem_cons_of_mem _ hx)

theorem condIndication_wf (b : Bool) (s : QueueState) (h : WellFormed s) :
    WellFormed (if b = true then sendApsDataIndicationReadRequest s else (s, [])).1 := by
  cases b
  · simpa using h
  · simpa using sendApsDataIndicationReadRequest_wf s h

theorem condConfirm_wf (b : Bool) (s : QueueState) (h : WellFormed s) :
    WellFormed (if b = true then sendApsDataConfirmReadRequest s else (s, [])).1 := by
  cases b
  · simpa using h
  · simpa using sendApsDataConfirmReadRequest_wf s h

theorem tryIoConnected_wf (ds : DeviceState) (s : QueueState) (h : WellFormed s) :
    WellFormed (tryIoConnected ds s).1 := by
  unfold tryIoConnected
  by_cases hc : ds.networkState.isConnected = true
  · rw [if_pos hc]
    exact trySendApsDataRequest_wf _ (condConfirm_wf _ _ (condIndication_wf _ _ h))
  · rw [if_neg hc]
    exact h

theorem tryIo_wf (s : QueueState) (h : WellFormed s) : WellFormed (tryIo s).state := by
  unfold tryIo
  split
  · exact sendDeviceStateRequest_wf s h
  · next ds hds =>
    show WellFormed (drainLoop _ (tryIoConnected ds s).1).1
    exact drainLoop_wf _ _ (tryIoConnected_wf ds s h)

theorem updateDeviceState_wf (s : QueueState) (ds : DeviceState) (h : WellFormed s) :
    WellFormed (updateDeviceState s ds) := h

theorem removeInFlight_wf (s : QueueState) (cmd : CommandId) (seq : Nat)
    (h : WellFormed s) : WellFormed (removeInFlight s cmd seq) := by
  refine ⟨?_, h.2.1, h.2.2⟩
  intro e he
  exact h.1 e (List.mem_of_mem_filter he)

theorem handleDeconzFrame_wf (s : QueueState) (f : IncomingFrame)
    (s' : QueueState) (effects : List DispatchEffect) (obs : Option DeviceState)
    (h : handleDeconzFrame s f = some (s', effects, obs)) (hwf : WellFormed s) :
    WellFormed s' := by
  unfold handleDeconzFrame at h
  rw [Option.map_eq_some'] at h
  obtain ⟨r, hr, heq⟩ := h
  rw [Prod.mk.injEq, Prod.mk.injEq] at heq
  obtain ⟨heq1, _, _⟩ := heq
  have hcore : WellFormed r.1 := by
    rcases dispatchCore_state s f r hr with hrs | ⟨e, _, hrs⟩
    · rw [hrs]
      exact hwf
    · rw [hrs]
      exact removeInFlight_wf _ _ _ hwf
  rw [← heq1]
  cases r.2.2 with
  | none => exact hcore
  | some ds => exact updateDeviceState_wf _ ds hcore

theorem enqueueCommand_wf (s : QueueState) (c : EnqueuedCommand)
    (hc : c.commandId ∈ catalogRequestIds) (h : WellFormed s) :
    WellFormed (enqueueCommand s c) := by
  unfold enqueueCommand
  split
  · next heq =>
    refine ⟨h.1, h.2.1, ?_⟩
    intro x hx
    rcases List.mem_append.1 hx with hx' | hx'
    · exact h.2.2 x hx'
    · rw [List.mem_singleton.1 hx']
      exact heq
  · refine ⟨h.1, ?_, h.2.2⟩
    intro x hx
    rcases List.mem_append.1 hx with hx' | hx'
    · exact h.2.1 x hx'
    · rw [List.mem_singleton.1 hx']
      exact hc

theorem step_wf {a : QueueState} {l : Label} {b : QueueState}
    (hstep : Step a l b) (h : WellFormed a) : WellFormed b := by
  cases hstep with
  | enqueue commandId payload responseParser hc => exact enqueueCommand_wf _ _ hc h
  | pace hsub => exact tryIo_wf _ h
  | paceApsSend hsub => exact tryIo_wf _ h
  | dispatchTau f _ effects hd => exact handleDeconzFrame_wf _ f _ effects none hd h
  | dispatchObserve f _ effects ds hd =>
    exact handleDeconzFrame_wf _ f _ effects (some ds) hd h

theorem reachable_wf (s : QueueState) (h : Reachable s) : WellFormed s := by
  induction h with
  | init =>
    refine ⟨?_, ?_, ?_⟩ <;> (intro e he; cases he)
  | step hr hst ih =>
    obtain ⟨l, hstep⟩ := hst
    exact step_wf hstep ih

/-! ## Claim C8 -/

/-- C8 counterexample: a `DeviceStateChanged` frame matches no in-flight
entry (the fresh queue has none), yet its dispatch is not a no-op: it
updates the recorded device state and the APS submission signal, so "a
frame whose key matches no entry is dropped without other state change"
fails for the unsolicited command ids. -/
theorem c8_counterexample :
    lookupInFlight initialState .DeviceStateChanged 0 = none ∧
    handleDeconzFrame initialState ⟨.DeviceStateChanged, 0, .Success, [0x22]⟩ =
      some (updateDeviceState initialState (DeviceState.fromByte 0x22), [],
        some (DeviceState.fromByte 0x22)) ∧
    (updateDeviceState initialState (DeviceState.fromByte 0x22)).deviceState ≠
      initialState.deviceState := by
  refine ⟨rfl, rfl, by decide⟩

/-- C8 amended: in every reachable state, a frame whose key matches an
External in-flight entry has that entry's continuation invoked exactly once
on the frame and the entry removed; a frame with a solicited command id
(not DeviceStateChanged / MacBeaconIndication / MacPollIndication) whose
key matches no entry is dropped without invoking any continuation and
without state change. Unsolicited ids never reach the lookup. -/
theorem c8_dispatch_external (s : QueueState) (hs : Reachable s)
    (f : IncomingFrame) :
    (∀ e p, lookupInFlight s f.commandId f.sequenceId = some e →
      e.command = .External p →
      handleDeconzFrame s f = some
        ((match p f with
          | some ds => updateDeviceState (removeInFlight s f.commandId f.sequenceId) ds
          | none => removeInFlight s f.commandId f.sequenceId),
         [.invoked f.commandId f.sequenceId f], p f)) ∧
    (lookupInFlight s f.commandId f.sequenceId = none →
      f.commandId ∉ unsolicitedIds →
      handleDeconzFrame s f = some (s, [], none)) := by
  constructor
  · intro e p hlook hext
    have hmem : e ∈ s.inFlightCommands := List.mem_of_find?_eq_some hlook
    have hkey : keyMatches f.commandId f.sequenceId e = true := List.find?_some hlook
    simp only [keyMatches, Bool.and_eq_true, beq_iff_eq] at hkey
    have hcat : f.commandId ∈ catalogRequestIds := by
      rw [← hkey.1]
      exact (reachable_wf s hs).1 e hmem
    have hcore : dispatchCore s f =
        some (removeInFlight s f.commandId f.sequenceId,
          [.invoked f.commandId f.sequenceId f], p f) := by
      unfold dispatchCore
      split
      · next heq => rw [heq] at hcat; exact absurd hcat (by decide)
      · next heq => rw [heq] at hcat; exact absurd hcat (by decide)
      · next heq => rw [heq] at hcat; exact absurd hcat (by decide)
      · obtain ⟨ecmd, eseq, ecom⟩ := e
        simp only at hext
        cases hext
        rw [hlook]
    unfold handleDeconzFrame
    rw [hcore]
    cases p f <;> rfl
  · intro hnone hnotuns
    have hne1 : f.commandId ≠ .DeviceStateChanged := by
      intro hh
      exact hnotuns (by rw [hh]; decide)
    have hne2 : f.commandId ≠ .MacBeaconIndication := by
      intro hh
      exact hnotuns (by rw [hh]; decide)
    have hne3 : f.commandId ≠ .MacPollIndication := by
      intro hh
      exact hnotuns (by rw [hh]; decide)
    have hcore : dispatchCore s f = some (s, [], none) := by
      unfold dispatchCore
      split
      · next heq => exact absurd heq hne1
      · next heq => exact absurd heq hne2
      · next heq => exact absurd heq hne3
      · rw [hnone]
    unfold handleDeconzFrame
    rw [hcore]
    rfl

/-- Witness for C8: from the reachable state with the Version command in
flight, its response frame invokes the continuation once and removes the
entry; a frame with an unmatched solicited key is dropped unchanged. -/
theorem c8_dispatch_external_witness :
    handleDeconzFrame c8StateInFlight c8ResponseFrame =
      some ((match trivialParser c8ResponseFrame with
        | some ds =>
          updateDeviceState (removeInFlight c8StateInFlight
            c8ResponseFrame.commandId c8ResponseFrame.sequenceId) ds
        | none =>
          removeInFlight c8StateInFlight
            c8ResponseFrame.commandId c8ResponseFrame.sequenceId),
       [.invoked c8ResponseFrame.commandId c8ResponseFrame.sequenceId c8ResponseFrame],
       trivialParser c8ResponseFrame) ∧
    handleDeconzFrame c8StateInFlight ⟨.ChangeNetworkState, 7, .Success, []⟩ =
      some (c8StateInFlight, [], none) := by
  have hreach : Reachable c8StateInFlight := by
    have h1 : Reachable c8StateConnected :=
      Reachable.step Reachable.init
        ⟨Label.dispatchObserve (DeviceState.fromByte 0x02),
          Step.dispatchObserve initialState (deviceStateChangedFrame 0x02)
            c8StateConnected [] (DeviceState.fromByte 0x02) rfl⟩
    have h2 : Reachable c8StateEnqueued :=
      Reachable.step h1 ⟨.enqueue,
        Step.enqueue c8StateConnected .Version (some [0, 0]) trivialParser (by decide)⟩
    exact Reachable.step h2 ⟨Label.pace, Step.pace c8StateEnqueued rfl⟩
  refine ⟨?_, ?_⟩
  · exact (c8_dispatch_external c8StateInFlight hreach c8ResponseFrame).1
      ⟨.Version, 0, .External trivialParser⟩ trivialParser rfl rfl
  · exact (c8_dispatch_external c8StateInFlight hreach
      ⟨.ChangeNetworkState, 7, .Success, []⟩).2 rfl (by decide)

/-! ## Claim C9 -/

theorem sendApsDataIndicationReadRequest_noInFlight (s : QueueState)
    (h : hasInFlightFor s .ApsDataIndication = false) :
    sendApsDataIndicationReadRequest s = ((sendCommand s readReceivedDataCommand).1,
      [⟨.ApsDataIndication, s.nextSequenceId, some [0x04]⟩]) := by
  unfold sendApsDataIndicationReadRequest
  rw [if_neg (by rw [h]; simp)]
  rfl

theorem sendApsDataConfirmReadRequest_sent (s : QueueState) :
    ∀ fr ∈ (sendApsDataConfirmReadRequest s).2, fr.commandId = .ApsDataConfirm := by
  unfold sendApsDataConfirmReadRequest
  split
  · intro fr hfr
    cases hfr
  · intro fr hfr
    rw [List.mem_singleton.1 hfr]
    rfl

theorem condConfirm_sent (b : Bool) (t : QueueState) :
    ∀ fr ∈ (if b = true then sendApsDataConfirmReadRequest t else (t, [])).2,
      fr.commandId = .ApsDataConfirm := by
  cases b
  · intro fr hfr
    simp at hfr
  · simpa using sendApsDataConfirmReadRequest_sent t

theorem condConfirm_general (b : Bool) (t : QueueState) :
    (if b = true then sendApsDataConfirmReadRequest t else (t, [])).1.enqueuedCommands =
      t.enqueuedCommands := by
  cases b
  · simp
  · simpa using sendApsDataConfirmReadRequest_general t

theorem condConfirm_apsQueue (b : Bool) (t : QueueState) :
    (if b = true then sendApsDataConfirmReadRequest t
      else (t, [])).1.enqueuedApsDataRequestCommands =
      t.enqueuedApsDataRequestCommands := by
  cases b
  · simp
  · simpa using sendApsDataConfirmReadRequest_apsQueue t

theorem trySendApsDataRequest_sent (s : QueueState) :
    ∀ fr ∈ (trySendApsDataRequest s).2.1,
      ∃ c ∈ s.enqueuedApsDataRequestCommands, fr.commandId = c.commandId := by
  unfold trySendApsDataRequest
  split
  · intro fr hfr
    cases hfr
  · split
    · intro fr hfr
      cases hfr
    · next c rest hq =>
      intro fr hfr
      rw [List.mem_singleton.1 hfr]
      exact ⟨c, by rw [hq]; exact List.mem_cons_self .., rfl⟩

theorem drainLoop_sent (fuel : Nat) (s : QueueState) :
    ∀ fr ∈ (drainLoop fuel s).2,
      ∃ c ∈ s.enqueuedCommands, fr.commandId = c.commandId := by
  induction fuel generalizing s with
  | zero =>
    intro fr hfr
    cases hfr
  | succ fuel ih =>
    unfold drainLoop
    split
    · intro fr hfr
      cases hfr
    · split
      · intro fr hfr
        cases hfr
      · next c rest hq =>
        intro fr hfr
        rcases List.mem_cons.1 hfr with rfl | hfr'
        · exact ⟨c, by rw [hq]; exact List.mem_cons_self .., rfl⟩
        · obtain ⟨c', hc', heq⟩ := ih _ fr hfr'
          rw [sendCommand_general] at hc'
          exact ⟨c', by rw [hq]; exact List.mem_cons_of_mem _ hc', heq⟩

/-- C9 counterexample: the claim omits the Connected requirement. After
observing device-state byte 0x08 (network Offline, indication pending, no
in-flight indication read), a pacing step sends nothing at all: `try_io`
only issues the indication read when the network state is Connected. -/
theorem c9_counterexample :
    Reachable c9OffState ∧
    c9OffState.deviceState = some (DeviceState.fromByte 0x08) ∧
    (DeviceState.fromByte 0x08).apsdeDataIndication = true ∧
    hasInFlightFor c9OffState .ApsDataIndication = false ∧
    (tryIo c9OffState).sent = [] := by
  refine ⟨Reachable.step Reachable.init
    ⟨Label.dispatchObserve (DeviceState.fromByte 0x08),
      Step.dispatchObserve initialState (deviceStateChangedFrame 0x08) c9OffState []
        (DeviceState.fromByte 0x08) rfl⟩, rfl, by decide, rfl, rfl⟩

/-- C9 amended: in a reachable state whose observed device state is
Connected with the indication-pending flag set, with no in-flight
ApsDataIndication command and no ApsDataIndication command waiting in the
general queue, one pacing step sends exactly one frame with command id 0x17,
and its body is the single byte 0x04. -/
theorem c9_indication_read (s : QueueState) (hs : Reachable s) (ds : DeviceState)
    (hds : s.deviceState = some ds)
    (hconn : ds.networkState = .NetConnected)
    (hind : ds.apsdeDataIndication = true)
    (hnofl : hasInFlightFor s .ApsDataIndication = false)
    (hqueue : ∀ c ∈ s.enqueuedCommands, c.commandId ≠ .ApsDataIndication) :
    (tryIo s).sent.filter (fun fr => fr.commandId == .ApsDataIndication) =
      [⟨.ApsDataIndication, s.nextSequenceId, some [0x04]⟩] := by
  have hwf := reachable_wf s hs
  have hconn' : ds.networkState.isConnected = true := by
    rw [hconn]
    rfl
  unfold tryIo
  split
  · next hnone =>
    rw [hds] at hnone
    cases hnone
  · next ds' hds' =>
    rw [hds] at hds'
    cases hds'
    show ((tryIoConnected ds s).2.1 ++
      (drainLoop (tryIoConnected ds s).1.enqueuedCommands.length
        (tryIoConnected ds s).1).2).filter _ = _
    unfold tryIoConnected
    rw [if_pos hconn']
    simp only [hind, if_true, sendApsDataIndicationReadRequest_noInFlight s hnofl]
    set sA := (sendCommand s readReceivedDataCommand).1 with hsA
    have hgenA : sA.enqueuedCommands = s.enqueuedCommands := sendCommand_general ..
    have hapsA : sA.enqueuedApsDataRequestCommands =
        s.enqueuedApsDataRequestCommands := sendCommand_apsQueue ..
    set rb := if ds.apsdeDataConfirm = true then sendApsDataConfirmReadRequest sA
      else (sA, []) with hrb
    have hgenB : rb.1.enqueuedCommands = s.enqueuedCommands := by
      rw [hrb, condConfirm_general, hgenA]
    have hapsB : rb.1.enqueuedApsDataRequestCommands =
        s.enqueuedApsDataRequestCommands := by
      rw [hrb, condConfirm_apsQueue, hapsA]
    set rc := trySendApsDataRequest rb.1 with hrc
    have hgenC : rc.1.enqueuedCommands = s.enqueuedCommands := by
      rw [hrc, trySendApsDataRequest_general, hgenB]
    rw [List.filter_append, List.filter_append, List.filter_append]
    have hA : ([(⟨.ApsDataIndication, s.nextSequenceId, some [0x04]⟩ : SentFrame)].filter
        (fun fr => fr.commandId == .ApsDataIndication)) =
        [⟨.ApsDataIndication, s.nextSequenceId, some [0x04]⟩] := by
      simp
    have hB : (rb.2.filter (fun fr => fr.commandId == .ApsDataIndication)) = [] := by
      rw [List.filter_eq_nil_iff]
      intro fr hfr
      have := condConfirm_sent ds.apsdeDataConfirm sA fr (by rw [← hrb] at *; exact hfr)
      simp [this]
    have hC : (rc.2.1.filter (fun fr => fr.commandId == .ApsDataIndication)) = [] := by
      rw [List.filter_eq_nil_iff]
      intro fr hfr
      obtain ⟨c, hc, heq⟩ := trySendApsDataRequest_sent rb.1 fr (by rw [← hrc] at *; exact hfr)
      rw [hapsB] at hc
      have hcid : c.commandId = .ApsDataRequest := hwf.2.2 c hc
      rw [heq, hcid]
      simp
    have hD : ((drainLoop rc.1.enqueuedCommands.length rc.1).2.filter
        (fun fr => fr.commandId == .ApsDataIndication)) = [] := by
      rw [List.filter_eq_nil_iff]
      intro fr hfr
      obtain ⟨c, hc, heq⟩ := drainLoop_sent _ rc.1 fr hfr
      rw [hgenC] at hc
      have hcid : c.commandId ≠ .ApsDataIndication := hqueue c hc
      rw [heq]
      simp [hcid]
    rw [hA, hB, hC, hD]
    simp

/-- Witness for C9 at the fresh queue after observing device state 0x0A:
the pacing step sends the single indication-read frame with body 0x04. -/
theorem c9_indication_read_witness :
    (tryIo c9ReadyState).sent.filter (fun fr => fr.commandId == .ApsDataIndication) =
      [⟨.ApsDataIndication, c9ReadyState.nextSequenceId, some [0x04]⟩] := by
  have hreach : Reachable c9ReadyState :=
    Reachable.step Reachable.init
      ⟨Label.dispatchObserve (DeviceState.fromByte 0x0A),
        Step.dispatchObserve initialState (deviceStateChangedFrame 0x0A) c9ReadyState []
          (DeviceState.fromByte 0x0A) rfl⟩
  exact c9_indication_read c9ReadyState hreach (DeviceState.fromByte 0x0A) rfl
    (by decide) (by decide) rfl (by intro c hc; cases hc)

end Deconz
